import Mathlib

/- Shallow embedding of the metrics aggregation engine of the github-analytics
repository: the analyzers of src/utils/analytics-metrics.ts and the bot
classifier of src/utils/bot-detection.ts.

Modelling conventions:
 * Timestamps are integers counting hours since an arbitrary epoch; `parseISO`
   is the identity, `differenceInHours a b = a - b` and
   `differenceInDays a b = Int.tdiv (a - b) 24` (truncation toward zero, as in
   date-fns for UTC instants on whole hours).
 * JavaScript numbers arising from divisions and averages are modelled as
   rationals.
 * A JavaScript `Map` is modelled as an association list in insertion order;
   `Map.set` on a fresh key appends, on an existing key updates in place.
 * `Array.prototype.sort` is a stable sort, modelled by `List.insertionSort`
   (also stable) with the corresponding total preorder.
 * `issue.labels` keeps only the label names; `issue.pull_request` keeps only
   the presence of the marker object. -/

structure GitHubUser where
  login : String
  type : String
  deriving DecidableEq

structure GitHubComment where
  id : Int
  user : Option GitHubUser
  body : String
  created_at : Int
  deriving DecidableEq

structure GitHubIssueEvent where
  id : Int
  event : String
  created_at : Int
  deriving DecidableEq

structure GitHubIssue where
  number : Int
  state : String
  created_at : Int
  closed_at : Option Int
  user : GitHubUser
  labels : List String
  assignees : List GitHubUser
  pull_request : Bool
  deriving DecidableEq

structure GitHubPullRequest where
  number : Int
  state : String
  created_at : Int
  closed_at : Option Int
  merged_at : Option Int
  user : GitHubUser
  merged : Bool
  commits : Option Int
  additions : Option Int
  deletions : Option Int
  deriving DecidableEq

structure GitHubReview where
  id : Int
  user : Option GitHubUser
  state : String
  submitted_at : Int
  deriving DecidableEq

structure IssueWithDetails where
  issue : GitHubIssue
  comments : List GitHubComment
  events : List GitHubIssueEvent
  deriving DecidableEq

structure PRWithReviews where
  pr : GitHubPullRequest
  reviews : List GitHubReview
  deriving DecidableEq

inductive TimeRange where
  | oneWeek
  | oneMonth
  | threeMonths
  | sixMonths
  deriving DecidableEq

/-- date-fns `differenceInHours` on whole-hour instants. -/
def differenceInHours (a b : Int) : Int := a - b

/-- date-fns `differenceInDays` on whole-hour UTC instants: truncating division. -/
def differenceInDays (a b : Int) : Int := Int.tdiv (a - b) 24

/-- date-fns `startOfDay` on whole-hour UTC instants. -/
def startOfDay (t : Int) : Int := 24 * Int.fdiv t 24

/-- date-fns `startOfWeek` (weeks starting Sunday; hour 0 of the epoch is a
Thursday, so Sunday boundaries lie at t ≡ -96 mod 168). -/
def startOfWeek (t : Int) : Int := 168 * Int.fdiv (t + 96) 168 - 96

/-! ### Bot classifier (src/utils/bot-detection.ts) -/

/-- The argument shape of `isBot`: both fields optional, possibly-null actor. -/
structure ActorInfo where
  type : Option String
  login : Option String
  deriving DecidableEq

/-- `String.endsWith`, re-expressed on the underlying character list (the
core version is defined by well-founded recursion and does not reduce). -/
def strEndsWith (s suffix : String) : Bool := List.isSuffixOf suffix.data s.data

/-- `String.toLower`: lower-case every character. -/
def strToLower (s : String) : String := String.mk (s.data.map Char.toLower)

/-- The fixed list of anchored case-insensitive bot login patterns. -/
def botPatternList : List String :=
  ["dependabot", "renovate", "greenkeeper", "snyk-bot", "codecov", "allcontributors"]

/-- `botPatterns.some((pattern) => pattern.test(user.login))` with anchored
case-insensitive regexes: anchored case-insensitive match = the lower-cased
login starts with the (lower-case) pattern. -/
def matchesBotPattern (login : String) : Bool :=
  botPatternList.any (fun p => List.isPrefixOf p.data (strToLower login).data)

/-- `isBot` from src/utils/bot-detection.ts. -/
def isBot (user : Option ActorInfo) : Bool :=
  match user with
  | none => false
  | some u =>
    if u.type = some ("Bot") then true
    else if (match u.login with
             | some l => strEndsWith l ("[bot]")
             | none => false) then true
    else match u.login with
      | some l => matchesBotPattern l
      | none => false

def GitHubUser.toActorInfo (u : GitHubUser) : ActorInfo :=
  { type := some u.type, login := some u.login }

/-- `isBot` applied to a nullable full user record (structural subtyping in the
source becomes an explicit adapter here). -/
def isBotUser (u : Option GitHubUser) : Bool :=
  isBot (u.map GitHubUser.toActorInfo)

/-! ### Statistics primitive -/

/-- `median` from src/utils/analytics-metrics.ts: sorted copy, middle element
for odd length, mean of the two middle elements for even length, 0 when empty. -/
def median (numbers : List ℚ) : ℚ :=
  if numbers.length = 0 then 0
  else
    let sorted := List.insertionSort (fun a b : ℚ => a ≤ b) numbers
    let mid := sorted.length / 2
    if sorted.length % 2 = 0 then (sorted.getD (mid - 1) 0 + sorted.getD mid 0) / 2
    else sorted.getD mid 0

/-! ### Issue lifecycle analyzer (calculateIssueLifecycleMetrics) -/

structure StaleIssueRate where
  after30Days : ℚ
  after60Days : ℚ
  after90Days : ℚ
  deriving DecidableEq

structure TimeSeriesPoint where
  date : Int
  medianTimeToFirstResponse : ℚ
  medianTimeToResolution : ℚ
  issuesCreated : Nat
  issuesClosed : Nat
  deriving DecidableEq

structure IssueLifecycleMetrics where
  medianTimeToFirstResponse : ℚ
  medianTimeToFirstMeaningfulResponse : ℚ
  medianTimeToTriage : ℚ
  medianTimeToResolution : ℚ
  staleIssueRate : StaleIssueRate
  reopenedIssueRate : ℚ
  timeSeries : List TimeSeriesPoint
  deriving DecidableEq

/-- The "time to first response" sample of one issue: hours from creation to the
first non-bot comment, kept only when non-negative. -/
def timeToFirstResponseSample (it : IssueWithDetails) : Option ℚ :=
  match it.comments.find? (fun c => c.user.isSome && !(isBotUser c.user)) with
  | none => none
  | some c =>
    let t := differenceInHours c.created_at it.issue.created_at
    if 0 ≤ t then some (t : ℚ) else none

/-- The "time to first meaningful response" sample: first non-bot comment whose
trimmed body has more than 10 characters. -/
def timeToMeaningfulSample (it : IssueWithDetails) : Option ℚ :=
  let meaningful := it.comments.filter
    (fun c => c.user.isSome && !(isBotUser c.user) && decide (10 < c.body.trim.length))
  match meaningful.head? with
  | none => none
  | some c =>
    let t := differenceInHours c.created_at it.issue.created_at
    if 0 ≤ t then some (t : ℚ) else none

/-- The "time to triage" sample: the earlier of the first "labeled" and the
first "assigned" event. -/
def timeToTriageSample (it : IssueWithDetails) : Option ℚ :=
  let labelEvent := it.events.find? (fun e => e.event == "labeled")
  let assigneeEvent := it.events.find? (fun e => e.event == "assigned")
  match labelEvent, assigneeEvent with
  | none, none => none
  | some le, some ae =>
    let te := if le.created_at < ae.created_at then le else ae
    let t := differenceInHours te.created_at it.issue.created_at
    if 0 ≤ t then some (t : ℚ) else none
  | some le, none =>
    let t := differenceInHours le.created_at it.issue.created_at
    if 0 ≤ t then some (t : ℚ) else none
  | none, some ae =>
    let t := differenceInHours ae.created_at it.issue.created_at
    if 0 ≤ t then some (t : ℚ) else none

/-- The "time to resolution" sample: creation to closure, when closed. -/
def timeToResolutionSample (it : IssueWithDetails) : Option ℚ :=
  match it.issue.closed_at with
  | none => none
  | some ca =>
    let t := differenceInHours ca it.issue.created_at
    if 0 ≤ t then some (t : ℚ) else none

/-- At least one "reopened" event and a non-null closed timestamp. -/
def isReopened (it : IssueWithDetails) : Bool :=
  decide (0 < (it.events.filter (fun e => e.event == "reopened")).length)
    && it.issue.closed_at.isSome

/-! Generic insertion-ordered grouping, modelling the JS pattern of a `Map`
from key to an array that is pushed to. -/

def groupPush {K V : Type} [DecidableEq K] (m : List (K × List V)) (k : K) (v : V) :
    List (K × List V) :=
  match m with
  | [] => [(k, [v])]
  | (k', vs) :: rest =>
    if k' = k then (k', vs ++ [v]) :: rest else (k', vs) :: groupPush rest k v

def groupByKey {K V : Type} [DecidableEq K] (key : V → K) (l : List V) :
    List (K × List V) :=
  l.foldl (fun m v => groupPush m (key v) v) []

/-- One bucket of the time series. -/
def timeSeriesPointOf (date : Int) (bucketIssues : List IssueWithDetails) : TimeSeriesPoint :=
  { date := date
    medianTimeToFirstResponse := median (bucketIssues.filterMap timeToFirstResponseSample)
    medianTimeToResolution := median (bucketIssues.filterMap timeToResolutionSample)
    issuesCreated := bucketIssues.length
    issuesClosed := (bucketIssues.filter (fun it => it.issue.state == "closed")).length }

/-- `calculateTimeSeries` from src/utils/analytics-metrics.ts.  Buckets keyed by
start of creation day (short windows) or week, emitted sorted by bucket key. -/
def calculateTimeSeries (issues : List IssueWithDetails) (timeRange : TimeRange) :
    List TimeSeriesPoint :=
  let bucketFn :=
    if timeRange == TimeRange.oneWeek || timeRange == TimeRange.oneMonth
    then startOfDay else startOfWeek
  let buckets := groupByKey (fun it => bucketFn it.issue.created_at) issues
  let ts := buckets.map (fun kv => timeSeriesPointOf kv.1 kv.2)
  List.insertionSort (fun a b => a.date ≤ b.date) ts

/-- `calculateIssueLifecycleMetrics` from src/utils/analytics-metrics.ts.
`now` is the clock reading the source obtains internally via `new Date()`. -/
def calculateIssueLifecycleMetrics (now : Int) (issues : List IssueWithDetails)
    (timeRange : TimeRange) : IssueLifecycleMetrics :=
  let timesToFirstResponse := issues.filterMap timeToFirstResponseSample
  let timesToFirstMeaningfulResponse := issues.filterMap timeToMeaningfulSample
  let timesToTriage := issues.filterMap timeToTriageSample
  let timesToResolution := issues.filterMap timeToResolutionSample
  let openIssues := (issues.map (fun it => it.issue)).filter (fun i => i.state == "open")
  let reopenedCount := (issues.filter isReopened).length
  let stale30Days :=
    (openIssues.filter (fun i => decide (30 < differenceInDays now i.created_at))).length
  let stale60Days :=
    (openIssues.filter (fun i => decide (60 < differenceInDays now i.created_at))).length
  let stale90Days :=
    (openIssues.filter (fun i => decide (90 < differenceInDays now i.created_at))).length
  let totalIssues := issues.length
  { medianTimeToFirstResponse := median timesToFirstResponse
    medianTimeToFirstMeaningfulResponse := median timesToFirstMeaningfulResponse
    medianTimeToTriage := median timesToTriage
    medianTimeToResolution := median timesToResolution
    staleIssueRate :=
      { after30Days :=
          if 0 < totalIssues then ((stale30Days : ℚ) / (totalIssues : ℚ)) * 100 else 0
        after60Days :=
          if 0 < totalIssues then ((stale60Days : ℚ) / (totalIssues : ℚ)) * 100 else 0
        after90Days :=
          if 0 < totalIssues then ((stale90Days : ℚ) / (totalIssues : ℚ)) * 100 else 0 }
    reopenedIssueRate :=
      if 0 < totalIssues then ((reopenedCount : ℚ) / (totalIssues : ℚ)) * 100 else 0
    timeSeries := calculateTimeSeries issues timeRange }

/-! ### Reviewer and contributor analyzer (calculateReviewerInsightsMetrics) -/

structure ReviewerInsight where
  username : String
  prsReviewed : Nat
  avgTimeToFirstReview : ℚ
  approvals : Nat
  changesRequested : Nat
  commentsOnly : Nat
  deriving DecidableEq

structure ContributorMetrics where
  username : String
  commits : Int
  additions : Int
  deletions : Int
  netLines : Int
  deriving DecidableEq

structure ReviewerInsightsMetrics where
  totalPRs : Nat
  medianTimeToFirstReview : ℚ
  medianTimeFromReviewToMerge : ℚ
  prsMergedWithoutReview : Nat
  prsClosedWithoutReview : Nat
  topReviewers : List ReviewerInsight
  topContributors : List ContributorMetrics
  deriving DecidableEq

/-- The non-bot reviews of a PR, in delivery order. -/
def humanReviewsOf (reviews : List GitHubReview) : List GitHubReview :=
  reviews.filter (fun r => r.user.isSome && !(isBotUser r.user))

/-- Stable ascending sort by submission time. -/
def sortedBySubmitted (rs : List GitHubReview) : List GitHubReview :=
  List.insertionSort (fun a b => a.submitted_at ≤ b.submitted_at) rs

def dummyReview : GitHubReview :=
  { id := 0, user := none, state := "", submitted_at := 0 }

/-- Insertion-ordered association map update: in-place on an existing key,
append on a fresh key (as a JS `Map`). -/
def updateAssoc {V : Type} (dflt : V) (m : List (String × V)) (u : String) (f : V → V) :
    List (String × V) :=
  match m with
  | [] => [(u, f dflt)]
  | (k, s) :: rest =>
    if k = u then (k, f s) :: rest else (k, s) :: updateAssoc dflt rest u f

def lookupAssoc {V : Type} (m : List (String × V)) (u : String) : Option V :=
  match m with
  | [] => none
  | (k, v) :: rest => if k = u then some v else lookupAssoc rest u

structure ReviewerStats where
  prsReviewed : Nat
  totalTimeToFirstReview : ℚ
  reviewCount : Nat
  approvals : Nat
  changesRequested : Nat
  commentsOnly : Nat
  deriving DecidableEq

def zeroStats : ReviewerStats :=
  { prsReviewed := 0, totalTimeToFirstReview := 0, reviewCount := 0
    approvals := 0, changesRequested := 0, commentsOnly := 0 }

/-- The per-review accumulator mutation of the source's inner loop: bump
`prsReviewed`, attribute the time to first review when this review's id is the
first review's id, and bump the matching disposition counter. -/
def bumpStats (firstId : Int) (t : ℚ) (r : GitHubReview) (s : ReviewerStats) : ReviewerStats :=
  let s1 := { s with prsReviewed := s.prsReviewed + 1 }
  let s2 :=
    if r.id = firstId then
      { s1 with totalTimeToFirstReview := s1.totalTimeToFirstReview + t
                reviewCount := s1.reviewCount + 1 }
    else s1
  if r.state = ("APPROVED") then { s2 with approvals := s2.approvals + 1 }
  else if r.state = ("CHANGES_REQUESTED") then { s2 with changesRequested := s2.changesRequested + 1 }
  else if r.state = ("COMMENTED") then { s2 with commentsOnly := s2.commentsOnly + 1 }
  else s2

/-- Fold one PR of the source's outer loop into the reviewer map. -/
def processPRReviews (m : List (String × ReviewerStats)) (item : PRWithReviews) :
    List (String × ReviewerStats) :=
  let humanReviews := humanReviewsOf item.reviews
  if humanReviews.isEmpty then m
  else
    let firstReview := (sortedBySubmitted humanReviews).headD dummyReview
    let t : ℚ := (differenceInHours firstReview.submitted_at item.pr.created_at : Int)
    humanReviews.foldl
      (fun m r =>
        match r.user with
        | none => m
        | some u => updateAssoc zeroStats m u.login (bumpStats firstReview.id t r))
      m

def reviewerStatsMap (prs : List PRWithReviews) : List (String × ReviewerStats) :=
  prs.foldl processPRReviews []

def insightOfEntry (e : String × ReviewerStats) : ReviewerInsight :=
  { username := e.1
    prsReviewed := e.2.prsReviewed
    avgTimeToFirstReview :=
      if 0 < e.2.reviewCount then e.2.totalTimeToFirstReview / (e.2.reviewCount : ℚ) else 0
    approvals := e.2.approvals
    changesRequested := e.2.changesRequested
    commentsOnly := e.2.commentsOnly }

/-- Rank reviewers by reviews performed, descending, stably; keep the top 10. -/
def topReviewersOf (prs : List PRWithReviews) : List ReviewerInsight :=
  (List.insertionSort (fun a b => b.prsReviewed ≤ a.prsReviewed)
    ((reviewerStatsMap prs).map insightOfEntry)).take 10

/-- The "time to first review" sample of one PR (earliest human review). -/
def timeToFirstReviewSample (item : PRWithReviews) : Option ℚ :=
  let humanReviews := humanReviewsOf item.reviews
  if humanReviews.isEmpty then none
  else
    let t := differenceInHours
      ((sortedBySubmitted humanReviews).headD dummyReview).submitted_at item.pr.created_at
    if 0 ≤ t then some (t : ℚ) else none

/-- The "first review to merge" sample of one PR. -/
def timeReviewToMergeSample (item : PRWithReviews) : Option ℚ :=
  let humanReviews := humanReviewsOf item.reviews
  if humanReviews.isEmpty then none
  else
    match item.pr.merged, item.pr.merged_at with
    | true, some ma =>
      let t := differenceInHours ma
        ((sortedBySubmitted humanReviews).headD dummyReview).submitted_at
      if 0 ≤ t then some (t : ℚ) else none
    | _, _ => none

structure ContribAcc where
  commits : Int
  additions : Int
  deletions : Int
  deriving DecidableEq

def zeroContrib : ContribAcc := { commits := 0, additions := 0, deletions := 0 }

def contributorStatsMap (prs : List PRWithReviews) : List (String × ContribAcc) :=
  prs.foldl
    (fun m item =>
      updateAssoc zeroContrib m item.pr.user.login
        (fun s =>
          { commits := s.commits + item.pr.commits.getD 0
            additions := s.additions + item.pr.additions.getD 0
            deletions := s.deletions + item.pr.deletions.getD 0 }))
    []

def contributorOfEntry (e : String × ContribAcc) : ContributorMetrics :=
  { username := e.1
    commits := e.2.commits
    additions := e.2.additions
    deletions := e.2.deletions
    netLines := e.2.additions - e.2.deletions }

def topContributorsOf (prs : List PRWithReviews) : List ContributorMetrics :=
  (List.insertionSort (fun a b => b.commits ≤ a.commits)
    ((contributorStatsMap prs).map contributorOfEntry)).take 10

/-- `calculateReviewerInsightsMetrics` from src/utils/analytics-metrics.ts. -/
def calculateReviewerInsightsMetrics (prs : List PRWithReviews) : ReviewerInsightsMetrics :=
  let timesToFirstReview := prs.filterMap timeToFirstReviewSample
  let timesFromReviewToMerge := prs.filterMap timeReviewToMergeSample
  let prsMergedWithoutReview :=
    (prs.filter (fun item =>
      (humanReviewsOf item.reviews).isEmpty
        && item.pr.merged && item.pr.merged_at.isSome)).length
  let prsClosedWithoutReview :=
    (prs.filter (fun item =>
      (humanReviewsOf item.reviews).isEmpty
        && !(item.pr.merged && item.pr.merged_at.isSome)
        && item.pr.state == "closed" && !item.pr.merged)).length
  { totalPRs := prs.length
    medianTimeToFirstReview := median timesToFirstReview
    medianTimeFromReviewToMerge := median timesFromReviewToMerge
    prsMergedWithoutReview := prsMergedWithoutReview
    prsClosedWithoutReview := prsClosedWithoutReview
    topReviewers := topReviewersOf prs
    topContributors := topContributorsOf prs }

/-! ### Contributor friction analyzer (calculateContributorFrictionMetrics) -/

structure ContributorFrictionMetrics where
  firstTimePRs : Nat
  returningPRs : Nat
  firstTimeMergeRate : ℚ
  returningMergeRate : ℚ
  firstTimeMedianTimeToReview : ℚ
  returningMedianTimeToReview : ℚ
  firstTimeMedianReviewCycles : ℚ
  firstTimeIssuesWithoutPR : Nat
  deriving DecidableEq

/-- The head of the stable ascending sort by creation time: the source's
`contributorFirstPR` value for one author's in-batch PR list. -/
def firstPROf (authorPRs : List GitHubPullRequest) : Option GitHubPullRequest :=
  (List.insertionSort (fun a b => a.created_at ≤ b.created_at) authorPRs).head?

/-- Lookup of the source's `contributorFirstPR` map. -/
def contributorFirstPR (prs : List PRWithReviews) (author : String) :
    Option GitHubPullRequest :=
  match (groupByKey (fun pr => pr.user.login) (prs.map (fun item => item.pr))).find?
      (fun kv => kv.1 == author) with
  | none => none
  | some kv => firstPROf kv.2

/-- Split the batch into first-time and returning PRs, preserving order. -/
def classifyPRs (prs : List PRWithReviews) : List PRWithReviews × List PRWithReviews :=
  prs.partition (fun item =>
    match contributorFirstPR prs item.pr.user.login with
    | some firstPR => firstPR.number == item.pr.number
    | none => false)

/-- Friction review-time sample: the FIRST human review in delivery order (the
source does not sort here), non-negative only. -/
def frictionReviewTimeSample (item : PRWithReviews) : Option ℚ :=
  match (humanReviewsOf item.reviews).head? with
  | none => none
  | some r =>
    let t := differenceInHours r.submitted_at item.pr.created_at
    if 0 ≤ t then some (t : ℚ) else none

/-- Review cycles of one PR: non-bot CHANGES_REQUESTED reviews. -/
def reviewCyclesOf (item : PRWithReviews) : ℚ :=
  ((item.reviews.filter
    (fun r => r.state == "CHANGES_REQUESTED" && r.user.isSome && !(isBotUser r.user))).length : Nat)

/-- JS `Set` insertion: keep first occurrence order. -/
def insertUniq (l : List String) (a : String) : List String :=
  if a ∈ l then l else l ++ [a]

def uniqueLogins (l : List String) : List String := l.foldl insertUniq []

/-- `calculateContributorFrictionMetrics` from src/utils/analytics-metrics.ts. -/
def calculateContributorFrictionMetrics (prs : List PRWithReviews)
    (issues : List IssueWithDetails) : ContributorFrictionMetrics :=
  let parts := classifyPRs prs
  let firstTimePRs := parts.1
  let returningPRs := parts.2
  let firstTimeMerged := (firstTimePRs.filter (fun item => item.pr.merged)).length
  let returningMerged := (returningPRs.filter (fun item => item.pr.merged)).length
  let firstTimeReviewTimes := firstTimePRs.filterMap frictionReviewTimeSample
  let returningReviewTimes := returningPRs.filterMap frictionReviewTimeSample
  let firstTimeReviewCycles := firstTimePRs.map reviewCyclesOf
  let issueAuthors := uniqueLogins (issues.map (fun it => it.issue.user.login))
  let prAuthors := prs.map (fun item => item.pr.user.login)
  let firstTimeIssuesWithoutPR :=
    (issueAuthors.filter (fun a => !(prAuthors.contains a))).length
  { firstTimePRs := firstTimePRs.length
    returningPRs := returningPRs.length
    firstTimeMergeRate :=
      if 0 < firstTimePRs.length
      then ((firstTimeMerged : ℚ) / (firstTimePRs.length : ℚ)) * 100 else 0
    returningMergeRate :=
      if 0 < returningPRs.length
      then ((returningMerged : ℚ) / (returningPRs.length : ℚ)) * 100 else 0
    firstTimeMedianTimeToReview := median firstTimeReviewTimes
    returningMedianTimeToReview := median returningReviewTimes
    firstTimeMedianReviewCycles := median firstTimeReviewCycles
    firstTimeIssuesWithoutPR := firstTimeIssuesWithoutPR }

/-! ### Backlog health analyzer (calculateBacklogHealthMetrics) -/

structure IssuesByAge where
  age0_30 : Nat
  age31_60 : Nat
  age61_90 : Nat
  age90Plus : Nat
  deriving DecidableEq

structure PRsByAge where
  age0_7 : Nat
  age8_14 : Nat
  age15_30 : Nat
  age30Plus : Nat
  deriving DecidableEq

structure BacklogIssuesInfo where
  totalOpen : Nat
  byAge : IssuesByAge
  unlabeled : Nat
  unlabeledPercentage : ℚ
  orphan : Nat
  orphanPercentage : ℚ
  deriving DecidableEq

structure BacklogPRsInfo where
  totalOpen : Nat
  byAge : PRsByAge
  withoutReview : Nat
  withoutReviewPercentage : ℚ
  deriving DecidableEq

structure BacklogHealthMetrics where
  score : ℚ
  label : String
  issues : BacklogIssuesInfo
  pullRequests : BacklogPRsInfo
  deriving DecidableEq

/-- `calculateBacklogHealthScore` from src/utils/analytics-metrics.ts. -/
def calculateBacklogHealthScore (issueByAge : IssuesByAge)
    (unlabeledPercentage orphanPercentage : ℚ) (prByAge : PRsByAge)
    (withoutReviewPercentage : ℚ) (totalOpenIssues totalOpenPRs : Nat) : ℚ :=
  let s0 : ℚ := 100
  let s1 :=
    if 0 < totalOpenIssues then
      let pct90Plus := ((issueByAge.age90Plus : ℚ) / (totalOpenIssues : ℚ)) * 100
      let pct61_90 := ((issueByAge.age61_90 : ℚ) / (totalOpenIssues : ℚ)) * 100
      let pct31_60 := ((issueByAge.age31_60 : ℚ) / (totalOpenIssues : ℚ)) * 100
      s0 - min 30 (pct90Plus * 2) - min 30 ((pct61_90 / 2) * 1)
        - min 30 ((pct31_60 / 5) * (1 / 2))
    else s0
  let s2 := s1 - min 20 ((unlabeledPercentage / 5) * 1)
  let s3 := s2 - min 20 ((orphanPercentage / 5) * 1)
  let s4 :=
    if 0 < totalOpenPRs then
      let pct30Plus := ((prByAge.age30Plus : ℚ) / (totalOpenPRs : ℚ)) * 100
      let pct15_30 := ((prByAge.age15_30 : ℚ) / (totalOpenPRs : ℚ)) * 100
      let pct8_14 := ((prByAge.age8_14 : ℚ) / (totalOpenPRs : ℚ)) * 100
      s3 - min 15 (pct30Plus * 2) - min 15 ((pct15_30 / 2) * 1)
        - min 15 ((pct8_14 / 5) * (1 / 2))
    else s3
  let s5 := s4 - min 15 ((withoutReviewPercentage / 5) * 1)
  max 0 (min 100 s5)

/-- `calculateBacklogHealthMetrics` from src/utils/analytics-metrics.ts.
`now` is the clock reading the source obtains internally via `new Date()`. -/
def calculateBacklogHealthMetrics (now : Int) (openIssues : List GitHubIssue)
    (openPRs : List GitHubPullRequest) (allPRs : List PRWithReviews) :
    BacklogHealthMetrics :=
  let issueAges := openIssues.map (fun issue => differenceInDays now issue.created_at)
  let byAge : IssuesByAge :=
    { age0_30 := (issueAges.filter (fun age => decide (age ≤ 30))).length
      age31_60 := (issueAges.filter (fun age => decide (30 < age) && decide (age ≤ 60))).length
      age61_90 := (issueAges.filter (fun age => decide (60 < age) && decide (age ≤ 90))).length
      age90Plus := (issueAges.filter (fun age => decide (90 < age))).length }
  let unlabeled := (openIssues.filter (fun issue => issue.labels.length == 0)).length
  let unlabeledPercentage :=
    if 0 < openIssues.length then ((unlabeled : ℚ) / (openIssues.length : ℚ)) * 100 else 0
  let orphan :=
    (openIssues.filter (fun issue => issue.assignees.length == 0 && !issue.pull_request)).length
  let orphanPercentage :=
    if 0 < openIssues.length then ((orphan : ℚ) / (openIssues.length : ℚ)) * 100 else 0
  let prAges := openPRs.map (fun pr => differenceInDays now pr.created_at)
  let prByAge : PRsByAge :=
    { age0_7 := (prAges.filter (fun age => decide (age ≤ 7))).length
      age8_14 := (prAges.filter (fun age => decide (7 < age) && decide (age ≤ 14))).length
      age15_30 := (prAges.filter (fun age => decide (14 < age) && decide (age ≤ 30))).length
      age30Plus := (prAges.filter (fun age => decide (30 < age))).length }
  let prsWithoutReview :=
    (openPRs.filter (fun pr =>
      match allPRs.find? (fun pd => pd.pr.number == pr.number) with
      | none => true
      | some pd => (humanReviewsOf pd.reviews).isEmpty)).length
  let withoutReviewPercentage :=
    if 0 < openPRs.length then ((prsWithoutReview : ℚ) / (openPRs.length : ℚ)) * 100 else 0
  let score := calculateBacklogHealthScore byAge unlabeledPercentage orphanPercentage
    prByAge withoutReviewPercentage openIssues.length openPRs.length
  { score := score
    label :=
      if 70 ≤ score then ("Healthy")
      else if 40 ≤ score then ("Needs Attention") else ("Overloaded")
    issues :=
      { totalOpen := openIssues.length
        byAge := byAge
        unlabeled := unlabeled
        unlabeledPercentage := unlabeledPercentage
        orphan := orphan
        orphanPercentage := orphanPercentage }
    pullRequests :=
      { totalOpen := openPRs.length
        byAge := prByAge
        withoutReview := prsWithoutReview
        withoutReviewPercentage := withoutReviewPercentage } }

/-! ### Specification-side definitions used by the theorems -/

/-- Percentage with the spec's zero-denominator convention. -/
def pctOf (num den : Nat) : ℚ := if 0 < den then ((num : ℚ) / (den : ℚ)) * 100 else 0

/-- The backlog score formula exactly as the specification words it: 100 minus
five capped deduction terms, clamped to [0, 100], with percentages taken from
the emitted metrics record. -/
def claimBacklogScore (M : BacklogHealthMetrics) : ℚ :=
  let d1 := min 30 (pctOf M.issues.byAge.age90Plus M.issues.totalOpen * 2)
  let d2 := min 30 (pctOf M.issues.byAge.age61_90 M.issues.totalOpen * (1 / 2))
  let d3 := min 30 (pctOf M.issues.byAge.age31_60 M.issues.totalOpen * (1 / 10))
  let dUnlabeled := min 20 (M.issues.unlabeledPercentage * (1 / 5))
  let dOrphan := min 20 (M.issues.orphanPercentage * (1 / 5))
  let d4 := min 15 (pctOf M.pullRequests.byAge.age30Plus M.pullRequests.totalOpen * 2)
  let d5 := min 15 (pctOf M.pullRequests.byAge.age15_30 M.pullRequests.totalOpen * (1 / 2))
  let d6 := min 15 (pctOf M.pullRequests.byAge.age8_14 M.pullRequests.totalOpen * (1 / 10))
  let dNoReview := min 15 (M.pullRequests.withoutReviewPercentage * (1 / 5))
  max 0 (min 100 (100 - (d1 + d2 + d3) - dUnlabeled - dOrphan - (d4 + d5 + d6) - dNoReview))

/-- The author login of a review, when the review has a user. -/
def reviewAuthor (r : GitHubReview) : Option String := r.user.map (fun u => u.login)

/-- All human reviews of one PR authored by `u`. -/
def reviewsBy (u : String) (item : PRWithReviews) : List GitHubReview :=
  (humanReviewsOf item.reviews).filter (fun r => reviewAuthor r == some u)

/-- Total number of human reviews authored by `u` across the batch. -/
def prsReviewedSpec (prs : List PRWithReviews) (u : String) : Nat :=
  (prs.map (fun item => (reviewsBy u item).length)).sum

/-- Number of human reviews authored by `u` with the given disposition. -/
def dispositionCountSpec (st : String) (prs : List PRWithReviews) (u : String) : Nat :=
  (prs.map (fun item => ((reviewsBy u item).filter (fun r => r.state == st)).length)).sum

/-- The PR's earliest human review by submission time (stable on ties). -/
def firstHumanReview (item : PRWithReviews) : Option GitHubReview :=
  (sortedBySubmitted (humanReviewsOf item.reviews)).head?

/-- Hours from PR creation to the earliest human review. -/
def firstReviewTime (item : PRWithReviews) : ℚ :=
  match firstHumanReview item with
  | none => 0
  | some r => ((differenceInHours r.submitted_at item.pr.created_at : Int) : ℚ)

/-- The PRs whose earliest human review is authored by `u`. -/
def firstReviewPRsOf (prs : List PRWithReviews) (u : String) : List PRWithReviews :=
  prs.filter (fun item =>
    match firstHumanReview item with
    | some r => reviewAuthor r == some u
    | none => false)

def firstSumSpec (prs : List PRWithReviews) (u : String) : ℚ :=
  ((firstReviewPRsOf prs u).map firstReviewTime).sum

def firstCountSpec (prs : List PRWithReviews) (u : String) : Nat :=
  (firstReviewPRsOf prs u).length

/-- Componentwise sum of reviewer accumulators. -/
def addStats (a b : ReviewerStats) : ReviewerStats :=
  { prsReviewed := a.prsReviewed + b.prsReviewed
    totalTimeToFirstReview := a.totalTimeToFirstReview + b.totalTimeToFirstReview
    reviewCount := a.reviewCount + b.reviewCount
    approvals := a.approvals + b.approvals
    changesRequested := a.changesRequested + b.changesRequested
    commentsOnly := a.commentsOnly + b.commentsOnly }

/-- The contribution of a single processed review. -/
def reviewContrib (firstId : Int) (t : ℚ) (r : GitHubReview) : ReviewerStats :=
  bumpStats firstId t r zeroStats

/-- The total contribution of one PR's review list to reviewer `u`. -/
def contribSum (firstId : Int) (t : ℚ) (u : String) (rs : List GitHubReview) : ReviewerStats :=
  match rs with
  | [] => zeroStats
  | r :: rest =>
    if reviewAuthor r = some u then addStats (reviewContrib firstId t r) (contribSum firstId t u rest)
    else contribSum firstId t u rest

/-- The contribution of one PR of the batch to reviewer `u`. -/
def perPRContrib (u : String) (item : PRWithReviews) : ReviewerStats :=
  let humanReviews := humanReviewsOf item.reviews
  if humanReviews.isEmpty then zeroStats
  else
    let firstReview := (sortedBySubmitted humanReviews).headD dummyReview
    let t : ℚ := (differenceInHours firstReview.submitted_at item.pr.created_at : Int)
    contribSum firstReview.id t u humanReviews

/-- Accumulated stats of reviewer `u` over the whole batch, specification side. -/
def statsSpecSum (prs : List PRWithReviews) (u : String) : ReviewerStats :=
  (prs.map (perPRContrib u)).foldr addStats zeroStats

def getStats (m : List (String × ReviewerStats)) (u : String) : ReviewerStats :=
  (lookupAssoc m u).getD zeroStats

/-- Option-valued group lookup used to reason about `groupByKey`. -/
def optGroup {K V : Type} [DecidableEq K] (m : List (K × List V)) (k : K) : Option (List V) :=
  (m.find? (fun kv => kv.1 == k)).map Prod.snd

/-! ### Concrete fixtures used by witnesses and example conjuncts -/

def exAlice : GitHubUser := { login := "alice", type := "User" }

def exBob : GitHubUser := { login := "bob", type := "User" }

/-- An open issue aged 200 days at clock 0, unlabeled, unassigned, no PR marker. -/
def exStaleIssue : GitHubIssue :=
  { number := 1, state := "open", created_at := -4800, closed_at := none
    user := exAlice, labels := [], assignees := [], pull_request := false }

/-- An open issue aged exactly 30 days at clock 0, labeled and assigned. -/
def exFreshIssue : GitHubIssue :=
  { number := 2, state := "open", created_at := 0, closed_at := none
    user := exAlice, labels := ["bug"], assignees := [exAlice], pull_request := false }

/-- An open issue aged exactly 30 days at clock 0. -/
def exIssue30 : GitHubIssue :=
  { number := 3, state := "open", created_at := -720, closed_at := none
    user := exAlice, labels := [], assignees := [], pull_request := false }

/-- An open issue aged exactly 31 days at clock 0. -/
def exIssue31 : GitHubIssue :=
  { number := 4, state := "open", created_at := -744, closed_at := none
    user := exAlice, labels := [], assignees := [], pull_request := false }

/-- An open PR aged 200 days at clock 0. -/
def exStalePR : GitHubPullRequest :=
  { number := 11, state := "open", created_at := -4800, closed_at := none
    merged_at := none, user := exAlice, merged := false
    commits := none, additions := none, deletions := none }

/-- An open PR aged 0 days at clock 0. -/
def exFreshPR : GitHubPullRequest :=
  { number := 12, state := "open", created_at := 0, closed_at := none
    merged_at := none, user := exAlice, merged := false
    commits := none, additions := none, deletions := none }

/-- An open PR aged exactly 30 days at clock 0. -/
def exPR30 : GitHubPullRequest :=
  { number := 13, state := "open", created_at := -720, closed_at := none
    merged_at := none, user := exAlice, merged := false
    commits := none, additions := none, deletions := none }

/-- An open PR aged exactly 31 days at clock 0. -/
def exPR31 : GitHubPullRequest :=
  { number := 14, state := "open", created_at := -744, closed_at := none
    merged_at := none, user := exAlice, merged := false
    commits := none, additions := none, deletions := none }

/-- A human approval 5 hours in. -/
def exApproval : GitHubReview :=
  { id := 101, user := some exBob, state := "APPROVED", submitted_at := 5 }

/-- Bob's first PR of the batch (created before the second one). -/
def exBobPR1 : GitHubPullRequest :=
  { number := 21, state := "closed", created_at := 0, closed_at := some 48
    merged_at := some 48, user := exBob, merged := true
    commits := some 1, additions := some 10, deletions := some 2 }

/-- Bob's second PR of the batch. -/
def exBobPR2 : GitHubPullRequest :=
  { number := 22, state := "open", created_at := 24, closed_at := none
    merged_at := none, user := exBob, merged := false
    commits := some 2, additions := some 5, deletions := some 1 }

/-! ### Helper lemmas -/

theorem sorted_insertionSort_le {α β : Type} [LinearOrder β] (f : α → β) (l : List α) :
    List.Sorted (fun a b => f a ≤ f b) (List.insertionSort (fun a b => f a ≤ f b) l) := by
  haveI : IsTotal α (fun a b => f a ≤ f b) := ⟨fun a b => le_total (f a) (f b)⟩
  haveI : IsTrans α (fun a b => f a ≤ f b) := ⟨fun a b c h1 h2 => le_trans h1 h2⟩
  exact List.sorted_insertionSort _ l

theorem sorted_insertionSort_ge {α β : Type} [LinearOrder β] (f : α → β) (l : List α) :
    List.Sorted (fun a b => f b ≤ f a) (List.insertionSort (fun a b => f b ≤ f a) l) := by
  haveI : IsTotal α (fun a b => f b ≤ f a) := ⟨fun a b => le_total (f b) (f a)⟩
  haveI : IsTrans α (fun a b => f b ≤ f a) := ⟨fun a b c h1 h2 => le_trans h2 h1⟩
  exact List.sorted_insertionSort _ l

theorem headD_insertionSort_mem {α β : Type} [LinearOrder β] (f : α → β) (l : List α) (d : α)
    (h : l ≠ []) : (List.insertionSort (fun a b => f a ≤ f b) l).headD d ∈ l := by
  have hperm := List.perm_insertionSort (fun a b => f a ≤ f b) l
  have hne : List.insertionSort (fun a b => f a ≤ f b) l ≠ [] := by
    intro hnil
    rw [hnil] at hperm
    exact h (List.Perm.eq_nil hperm.symm)
  obtain ⟨a, t, ht⟩ := List.exists_cons_of_ne_nil hne
  rw [ht, List.headD_cons]
  refine hperm.mem_iff.mp ?m
  rw [ht]
  exact List.mem_cons_self a t

theorem headD_insertionSort_min {α β : Type} [LinearOrder β] (f : α → β) (l : List α) (d : α)
    (x : α) (hx : x ∈ l) :
    f ((List.insertionSort (fun a b => f a ≤ f b) l).headD d) ≤ f x := by
  have hperm := List.perm_insertionSort (fun a b => f a ≤ f b) l
  have hs := sorted_insertionSort_le f l
  have hxs : x ∈ List.insertionSort (fun a b => f a ≤ f b) l := hperm.mem_iff.mpr hx
  obtain ⟨a, t, ht⟩ := List.exists_cons_of_ne_nil (List.ne_nil_of_mem hxs)
  rw [ht, List.headD_cons]
  rw [ht] at hxs hs
  rcases List.mem_cons.mp hxs with h | h
  · rw [h]
  · exact List.rel_of_sorted_cons hs x h

/-! ### Claim theorems -/

/-- C10: on an empty backlog (no open issues, no open PRs, any historical PR
batch) the backlog health analyzer returns score 100 with label "Healthy", all
age buckets 0, and all counts and percentages 0; no undefined value occurs. -/
theorem C10_backlog_empty_healthy (now : Int) (allPRs : List PRWithReviews) :
    calculateBacklogHealthMetrics now [] [] allPRs =
      { score := 100
        label := "Healthy"
        issues :=
          { totalOpen := 0
            byAge := { age0_30 := 0, age31_60 := 0, age61_90 := 0, age90Plus := 0 }
            unlabeled := 0, unlabeledPercentage := 0, orphan := 0, orphanPercentage := 0 }
        pullRequests :=
          { totalOpen := 0
            byAge := { age0_7 := 0, age8_14 := 0, age15_30 := 0, age30Plus := 0 }
            withoutReview := 0, withoutReviewPercentage := 0 } } := by
  simp only [calculateBacklogHealthMetrics, calculateBacklogHealthScore]
  norm_num [min_def, max_def]

/-- C2: each of the four analyzers is a deterministic pure function of its
inputs: two calls on equal input batches return equal output records. -/
theorem C2_analyzers_deterministic :
    (∀ a b : Int × List IssueWithDetails × TimeRange, a = b →
      calculateIssueLifecycleMetrics a.1 a.2.1 a.2.2 =
        calculateIssueLifecycleMetrics b.1 b.2.1 b.2.2)
  ∧ (∀ a b : List PRWithReviews, a = b →
      calculateReviewerInsightsMetrics a = calculateReviewerInsightsMetrics b)
  ∧ (∀ a b : List PRWithReviews × List IssueWithDetails, a = b →
      calculateContributorFrictionMetrics a.1 a.2 =
        calculateContributorFrictionMetrics b.1 b.2)
  ∧ (∀ a b : Int × List GitHubIssue × List GitHubPullRequest × List PRWithReviews, a = b →
      calculateBacklogHealthMetrics a.1 a.2.1 a.2.2.1 a.2.2.2 =
        calculateBacklogHealthMetrics b.1 b.2.1 b.2.2.1 b.2.2.2) := by
  refine ⟨?p1, ?p2, ?p3, ?p4⟩ <;> (intro a b h; rw [h])

/-- C2 witness: determinism instantiated on concrete equal inputs. -/
theorem C2_analyzers_deterministic_witness :
    calculateIssueLifecycleMetrics 0 [] TimeRange.oneWeek =
      calculateIssueLifecycleMetrics 0 [] TimeRange.oneWeek
  ∧ calculateReviewerInsightsMetrics [] = calculateReviewerInsightsMetrics []
  ∧ calculateContributorFrictionMetrics [] [] = calculateContributorFrictionMetrics [] []
  ∧ calculateBacklogHealthMetrics 0 [] [] [] = calculateBacklogHealthMetrics 0 [] [] [] :=
  ⟨C2_analyzers_deterministic.1 (0, [], TimeRange.oneWeek) (0, [], TimeRange.oneWeek) rfl,
   C2_analyzers_deterministic.2.1 [] [] rfl,
   C2_analyzers_deterministic.2.2.1 ([], []) ([], []) rfl,
   C2_analyzers_deterministic.2.2.2 (0, [], [], []) (0, [], [], []) rfl⟩

/-- C4: `isBot` holds exactly for a non-null actor whose account kind is "Bot",
or whose login ends in "[bot]", or whose login starts case-insensitively with
one of the six known automation prefixes; a null actor is never a bot; in
particular "dependabot[bot]" and "dependabot-preview" are bots. -/
theorem C4_isBot_characterization :
    (∀ a : Option ActorInfo, isBot a = true ↔
      ∃ u, a = some u ∧
        (u.type = some ("Bot") ∨
          ∃ l, u.login = some l ∧
            (strEndsWith l ("[bot]") = true ∨
              ∃ p ∈ botPatternList, List.isPrefixOf p.data (strToLower l).data = true)))
  ∧ isBot none = false
  ∧ isBot (some { type := some ("User"), login := some ("dependabot[bot]") }) = true
  ∧ isBot (some { type := some ("User"), login := some ("dependabot-preview") }) = true := by
  refine ⟨?ch, rfl, by decide, by decide⟩
  intro a
  cases a with
  | none => simp [isBot]
  | some u =>
    obtain ⟨ty, lo⟩ := u
    cases lo with
    | none =>
      by_cases hty : ty = some ("Bot") <;>
        simp [isBot, hty]
    | some l =>
      by_cases hty : ty = some ("Bot")
      · simp [isBot, hty]
      · by_cases hend : strEndsWith l ("[bot]") = true
        · simp [isBot, hty, hend]
        · by_cases hpat : matchesBotPattern l = true
          · simp only [matchesBotPattern, List.any_eq_true] at hpat
            simp [isBot, hty, hend, matchesBotPattern, List.any_eq_true, hpat]
          · simp only [matchesBotPattern, List.any_eq_true] at hpat
            simp [isBot, hty, hend, matchesBotPattern, List.any_eq_true, hpat]

/-- C3: `median` is 0 on the empty list, the middle element of the ascending
sort for odd length, the mean of the two middle elements for even length;
it is invariant under permutation of its input (mutation-freedom is inherent
in the purely functional embedding). -/
theorem C3_median_spec :
    median [] = 0 ∧ median [(5 : ℚ)] = 5 ∧ median [(1 : ℚ), 3] = 2
  ∧ median [(1 : ℚ), 2, 3] = 2
  ∧ (∀ l l' : List ℚ, l.Perm l' → median l = median l')
  ∧ (∀ l s : List ℚ, l.Perm s → s.Sorted (fun a b => a ≤ b) →
      (l.length % 2 = 1 → median l = s.getD (l.length / 2) 0) ∧
      (l.length % 2 = 0 → l ≠ [] →
        median l = (s.getD (l.length / 2 - 1) 0 + s.getD (l.length / 2) 0) / 2)) := by
  have key : ∀ l s : List ℚ, l.Perm s → s.Sorted (fun a b => a ≤ b) →
      List.insertionSort (fun a b : ℚ => a ≤ b) l = s := by
    intro l s hperm hs
    exact List.eq_of_perm_of_sorted
      ((List.perm_insertionSort (fun a b : ℚ => a ≤ b) l).trans hperm)
      (List.sorted_insertionSort (fun a b : ℚ => a ≤ b) l) hs
  refine ⟨by norm_num [median], by norm_num [median], ?e2, ?e3, ?perm, ?mid⟩
  · show median [(1 : ℚ), 3] = 2
    norm_num [median, List.insertionSort, List.orderedInsert]
  · show median [(1 : ℚ), 2, 3] = 2
    norm_num [median, List.insertionSort, List.orderedInsert]
  · intro l l' hperm
    have h1 : List.insertionSort (fun a b : ℚ => a ≤ b) l =
        List.insertionSort (fun a b : ℚ => a ≤ b) l' :=
      key l _ (hperm.trans (List.perm_insertionSort (fun a b : ℚ => a ≤ b) l').symm)
        (List.sorted_insertionSort (fun a b : ℚ => a ≤ b) l')
    have hlen : l.length = l'.length := hperm.length_eq
    simp only [median, h1, hlen]
  · intro l s hperm hs
    have h1 := key l s hperm hs
    have hlen : s.length = l.length := hperm.length_eq.symm
    constructor
    · intro hodd
      have hne : ¬ l.length = 0 := by omega
      have hpar : ¬ l.length % 2 = 0 := by omega
      simp only [median, h1, hlen, if_neg hne, if_neg hpar]
    · intro heven hne0
      have hne : ¬ l.length = 0 := fun h => hne0 (List.length_eq_zero.mp h)
      simp only [median, h1, hlen, if_neg hne, if_pos heven]

/-- C3 witness: permutation invariance and the sorted-middle characterization
instantiated at concrete inputs. -/
theorem C3_median_spec_witness :
    median [(3 : ℚ), 1] = median [(1 : ℚ), 3]
  ∧ median [(2 : ℚ), 1, 3] = [(1 : ℚ), 2, 3].getD 1 0 :=
  ⟨C3_median_spec.2.2.2.2.1 [(3 : ℚ), 1] [(1 : ℚ), 3] (by decide),
   (C3_median_spec.2.2.2.2.2 [(2 : ℚ), 1, 3] [(1 : ℚ), 2, 3] (by decide) (by decide)).1
     (by decide)⟩

/-- C5: the stale-issue rates are monotone decreasing in the age threshold, and
the after-N rate is the percentage of the full issue population whose open
members are older than N days. -/
theorem C5_stale_rates_monotone (now : Int) (issues : List IssueWithDetails)
    (tr : TimeRange) :
    ((calculateIssueLifecycleMetrics now issues tr).staleIssueRate.after90Days ≤
        (calculateIssueLifecycleMetrics now issues tr).staleIssueRate.after60Days
      ∧ (calculateIssueLifecycleMetrics now issues tr).staleIssueRate.after60Days ≤
          (calculateIssueLifecycleMetrics now issues tr).staleIssueRate.after30Days)
  ∧ ((calculateIssueLifecycleMetrics now issues tr).staleIssueRate.after30Days =
        pctOf (issues.countP (fun it =>
            it.issue.state == "open" && decide (30 < differenceInDays now it.issue.created_at)))
          issues.length
      ∧ (calculateIssueLifecycleMetrics now issues tr).staleIssueRate.after60Days =
          pctOf (issues.countP (fun it =>
              it.issue.state == "open" && decide (60 < differenceInDays now it.issue.created_at)))
            issues.length
      ∧ (calculateIssueLifecycleMetrics now issues tr).staleIssueRate.after90Days =
          pctOf (issues.countP (fun it =>
              it.issue.state == "open" && decide (90 < differenceInDays now it.issue.created_at)))
            issues.length) := by
  have hcount : ∀ m n : Int, m ≤ n →
      ((issues.map (fun it => it.issue)).filter (fun i => i.state == "open")).countP
          (fun i => decide (n < differenceInDays now i.created_at)) ≤
        ((issues.map (fun it => it.issue)).filter (fun i => i.state == "open")).countP
          (fun i => decide (m < differenceInDays now i.created_at)) := by
    intro m n hmn
    refine List.countP_mono_left ?imp
    intro i _ h
    simp only [decide_eq_true_eq] at h ⊢
    omega
  have hchar : ∀ n : Int,
      (((issues.map (fun it => it.issue)).filter (fun i => i.state == "open")).filter
          (fun i => decide (n < differenceInDays now i.created_at))).length =
        issues.countP (fun it =>
          it.issue.state == "open" && decide (n < differenceInDays now it.issue.created_at)) := by
    intro n
    rw [← List.countP_eq_length_filter, List.countP_filter, List.countP_map]
    refine List.countP_congr ?h
    intro it _
    simp [Function.comp, Bool.and_comm]
  constructor
  · constructor
    · simp only [calculateIssueLifecycleMetrics]
      rw [← List.countP_eq_length_filter, ← List.countP_eq_length_filter]
      split_ifs with h
      · have hc := hcount 60 90 (by norm_num)
        have hT : (0 : ℚ) < (issues.length : ℚ) := by exact_mod_cast h
        exact mul_le_mul_of_nonneg_right
          ((div_le_div_iff_of_pos_right hT).mpr (Nat.cast_le.mpr hc)) (by norm_num)
      · exact le_refl 0
    · simp only [calculateIssueLifecycleMetrics]
      rw [← List.countP_eq_length_filter, ← List.countP_eq_length_filter]
      split_ifs with h
      · have hc := hcount 30 60 (by norm_num)
        have hT : (0 : ℚ) < (issues.length : ℚ) := by exact_mod_cast h
        exact mul_le_mul_of_nonneg_right
          ((div_le_div_iff_of_pos_right hT).mpr (Nat.cast_le.mpr hc)) (by norm_num)
      · exact le_refl 0
  · refine ⟨?h30, ?h60, ?h90⟩
    · simp only [calculateIssueLifecycleMetrics, pctOf]
      rw [hchar 30]
    · simp only [calculateIssueLifecycleMetrics, pctOf]
      rw [hchar 60]
    · simp only [calculateIssueLifecycleMetrics, pctOf]
      rw [hchar 90]

/-- C8: age buckets are closed on the lower end with an open-ended last bucket:
the issue buckets hold ages ≤30, 31-60, 61-90 and ≥91 days, the PR buckets ages
≤7, 8-14, 15-30 and ≥31 days; an issue aged exactly 30 days lands in "0-30"
and one aged 31 days in "31-60", and analogously a PR aged 30 days lands in
"15-30" and one aged 31 days in "30+". -/
theorem C8_age_bucketing (now : Int) (openIssues : List GitHubIssue)
    (openPRs : List GitHubPullRequest) (allPRs : List PRWithReviews) :
    ((calculateBacklogHealthMetrics now openIssues openPRs allPRs).issues.byAge.age0_30 =
        openIssues.countP (fun i => decide (differenceInDays now i.created_at ≤ 30))
      ∧ (calculateBacklogHealthMetrics now openIssues openPRs allPRs).issues.byAge.age31_60 =
          openIssues.countP (fun i =>
            decide (31 ≤ differenceInDays now i.created_at ∧
              differenceInDays now i.created_at ≤ 60))
      ∧ (calculateBacklogHealthMetrics now openIssues openPRs allPRs).issues.byAge.age61_90 =
          openIssues.countP (fun i =>
            decide (61 ≤ differenceInDays now i.created_at ∧
              differenceInDays now i.created_at ≤ 90))
      ∧ (calculateBacklogHealthMetrics now openIssues openPRs allPRs).issues.byAge.age90Plus =
          openIssues.countP (fun i => decide (91 ≤ differenceInDays now i.created_at)))
  ∧ ((calculateBacklogHealthMetrics now openIssues openPRs allPRs).pullRequests.byAge.age0_7 =
        openPRs.countP (fun p => decide (differenceInDays now p.created_at ≤ 7))
      ∧ (calculateBacklogHealthMetrics now openIssues openPRs allPRs).pullRequests.byAge.age8_14 =
          openPRs.countP (fun p =>
            decide (8 ≤ differenceInDays now p.created_at ∧
              differenceInDays now p.created_at ≤ 14))
      ∧ (calculateBacklogHealthMetrics now openIssues openPRs allPRs).pullRequests.byAge.age15_30 =
          openPRs.countP (fun p =>
            decide (15 ≤ differenceInDays now p.created_at ∧
              differenceInDays now p.created_at ≤ 30))
      ∧ (calculateBacklogHealthMetrics now openIssues openPRs allPRs).pullRequests.byAge.age30Plus =
          openPRs.countP (fun p => decide (31 ≤ differenceInDays now p.created_at)))
  ∧ ((calculateBacklogHealthMetrics 0 [exIssue30] [] []).issues.byAge.age0_30 = 1
      ∧ (calculateBacklogHealthMetrics 0 [exIssue30] [] []).issues.byAge.age31_60 = 0
      ∧ (calculateBacklogHealthMetrics 0 [exIssue31] [] []).issues.byAge.age31_60 = 1
      ∧ (calculateBacklogHealthMetrics 0 [exIssue31] [] []).issues.byAge.age0_30 = 0
      ∧ (calculateBacklogHealthMetrics 0 [] [exPR30] []).pullRequests.byAge.age15_30 = 1
      ∧ (calculateBacklogHealthMetrics 0 [] [exPR30] []).pullRequests.byAge.age30Plus = 0
      ∧ (calculateBacklogHealthMetrics 0 [] [exPR31] []).pullRequests.byAge.age30Plus = 1
      ∧ (calculateBacklogHealthMetrics 0 [] [exPR31] []).pullRequests.byAge.age15_30 = 0) := by
  have conv : ∀ {α : Type} (l : List α) (f : α → Int) (p : Int → Bool) (q : α → Bool),
      (∀ a ∈ l, p (f a) = true ↔ q a = true) →
      ((l.map f).filter p).length = l.countP q := by
    intro α l f p q h
    rw [← List.countP_eq_length_filter, List.countP_map]
    exact List.countP_congr h
  refine ⟨⟨?i1, ?i2, ?i3, ?i4⟩, ⟨?p1, ?p2, ?p3, ?p4⟩,
    by decide, by decide, by decide, by decide, by decide, by decide, by decide, by decide⟩
  · simp only [calculateBacklogHealthMetrics]
    exact conv openIssues _ _ _ (fun a _ => by simp)
  · simp only [calculateBacklogHealthMetrics]
    exact conv openIssues _ _ _ (fun a _ => by simp; omega)
  · simp only [calculateBacklogHealthMetrics]
    exact conv openIssues _ _ _ (fun a _ => by simp; omega)
  · simp only [calculateBacklogHealthMetrics]
    exact conv openIssues _ _ _ (fun a _ => by simp; omega)
  · simp only [calculateBacklogHealthMetrics]
    exact conv openPRs _ _ _ (fun a _ => by simp)
  · simp only [calculateBacklogHealthMetrics]
    exact conv openPRs _ _ _ (fun a _ => by simp; omega)
  · simp only [calculateBacklogHealthMetrics]
    exact conv openPRs _ _ _ (fun a _ => by simp; omega)
  · simp only [calculateBacklogHealthMetrics]
    exact conv openPRs _ _ _ (fun a _ => by simp; omega)

/-- C1: the backlog health score always equals 100 minus the five capped
deduction terms of the specification, clamped to [0, 100]; an all-stale,
all-unlabeled, all-orphan, all-unreviewed backlog scores exactly 0 and an
all-fresh, labeled, assigned, reviewed backlog scores exactly 100. -/
theorem C1_backlog_score_formula (now : Int) (openIssues : List GitHubIssue)
    (openPRs : List GitHubPullRequest) (allPRs : List PRWithReviews) :
    ((calculateBacklogHealthMetrics now openIssues openPRs allPRs).score =
      claimBacklogScore (calculateBacklogHealthMetrics now openIssues openPRs allPRs))
  ∧ (calculateBacklogHealthMetrics 0 [exStaleIssue] [exStalePR] []).score = 0
  ∧ (calculateBacklogHealthMetrics 0 [exFreshIssue] [exFreshPR]
      [{ pr := exFreshPR, reviews := [exApproval] }]).score = 100 := by
  have hmin30 : min (30 : ℚ) 0 = 0 := min_eq_right (by norm_num)
  have hmin15 : min (15 : ℚ) 0 = 0 := min_eq_right (by norm_num)
  refine ⟨?main, ?zero, ?hundred⟩
  · have e2 : ∀ x : ℚ, (x / 2) * 1 = x * (1 / 2) := fun x => by ring
    have e3 : ∀ x : ℚ, (x / 5) * 1 = x * (1 / 5) := fun x => by ring
    have e5 : ∀ x : ℚ, (x / 5) * (1 / 2) = x * (1 / 10) := fun x => by ring
    simp only [calculateBacklogHealthMetrics, calculateBacklogHealthScore, claimBacklogScore,
      pctOf, e2, e3, e5]
    split_ifs <;> (try simp only [zero_mul, hmin30, hmin15]) <;> ring_nf
  · simp +decide [calculateBacklogHealthMetrics, calculateBacklogHealthScore,
      differenceInDays, exStaleIssue, exStalePR]
    try norm_num [min_def, max_def]
  · simp +decide [calculateBacklogHealthMetrics, calculateBacklogHealthScore,
      differenceInDays, exFreshIssue, exFreshPR, exApproval, humanReviewsOf, isBotUser,
      isBot, GitHubUser.toActorInfo, exBob, matchesBotPattern, strEndsWith, strToLower]
    try norm_num [min_def, max_def]

theorem groupPush_nonempty {K V : Type} [DecidableEq K] (m : List (K × List V)) (k : K) (v : V)
    (h : ∀ kv ∈ m, kv.2 ≠ []) : ∀ kv ∈ groupPush m k v, kv.2 ≠ [] := by
  induction m with
  | nil =>
    intro kv hkv
    simp only [groupPush, List.mem_singleton] at hkv
    subst hkv
    simp
  | cons head tail ih =>
    intro kv hkv
    obtain ⟨k', vs⟩ := head
    simp only [groupPush] at hkv
    split at hkv
    · rcases List.mem_cons.mp hkv with rfl | hmem
      · simp
      · exact h _ (List.mem_cons_of_mem _ hmem)
    · rcases List.mem_cons.mp hkv with rfl | hmem
      · exact h _ (List.mem_cons_self _ _)
      · exact ih (fun kv2 hkv2 => h kv2 (List.mem_cons_of_mem _ hkv2)) kv hmem

theorem groupByKey_nonempty {K V : Type} [DecidableEq K] (key : V → K) (l : List V) :
    ∀ kv ∈ groupByKey key l, kv.2 ≠ [] := by
  suffices h : ∀ m : List (K × List V), (∀ kv ∈ m, kv.2 ≠ []) →
      ∀ kv ∈ l.foldl (fun m v => groupPush m (key v) v) m, kv.2 ≠ [] by
    exact h [] (by simp)
  induction l with
  | nil => intro m hm kv hkv; exact hm kv hkv
  | cons v rest ih =>
    intro m hm
    exact ih _ (groupPush_nonempty _ _ _ hm)

/-- C9: every emitted time-series bucket has issuesCreated at least 1 and
issuesClosed at most issuesCreated, and the buckets are sorted ascending by
their date key. -/
theorem C9_timeSeries_invariants (now : Int) (issues : List IssueWithDetails)
    (tr : TimeRange) :
    (∀ b ∈ (calculateIssueLifecycleMetrics now issues tr).timeSeries,
        1 ≤ b.issuesCreated ∧ b.issuesClosed ≤ b.issuesCreated)
  ∧ List.Sorted (fun a b => a.date ≤ b.date)
      (calculateIssueLifecycleMetrics now issues tr).timeSeries := by
  constructor
  · intro b hb
    simp only [calculateIssueLifecycleMetrics, calculateTimeSeries] at hb
    rw [List.mem_insertionSort] at hb
    obtain ⟨kv, hkv, rfl⟩ := List.mem_map.mp hb
    have hne := groupByKey_nonempty _ issues kv hkv
    constructor
    · simpa [timeSeriesPointOf] using List.length_pos.mpr hne
    · simpa [timeSeriesPointOf] using List.length_filter_le _ kv.2
  · simp only [calculateIssueLifecycleMetrics, calculateTimeSeries]
    exact sorted_insertionSort_le (fun p : TimeSeriesPoint => p.date) _

theorem optGroup_groupPush_same {K V : Type} [DecidableEq K] (m : List (K × List V))
    (k : K) (v : V) :
    optGroup (groupPush m k v) k = some ((optGroup m k).getD [] ++ [v]) := by
  induction m with
  | nil => simp [groupPush, optGroup]
  | cons head tail ih =>
    obtain ⟨k', vs⟩ := head
    by_cases hk : k' = k
    · subst hk
      simp [groupPush, optGroup]
    · simp only [groupPush, if_neg hk, optGroup, List.find?]
      have : (k' == k) = false := beq_eq_false_iff_ne.mpr hk
      simp only [this]
      exact ih

theorem optGroup_groupPush_other {K V : Type} [DecidableEq K] (m : List (K × List V))
    (k k' : K) (v : V) (h : k' ≠ k) :
    optGroup (groupPush m k v) k' = optGroup m k' := by
  induction m with
  | nil =>
    simp only [groupPush, optGroup, List.find?]
    have : (k == k') = false := beq_eq_false_iff_ne.mpr (Ne.symm h)
    simp [this]
  | cons head tail ih =>
    obtain ⟨k2, vs⟩ := head
    by_cases hk : k2 = k
    · subst hk
      have hbeq : (k2 == k') = false := beq_eq_false_iff_ne.mpr (fun he => h he.symm)
      simp [groupPush, optGroup, List.find?, hbeq]
    · simp only [groupPush, if_neg hk, optGroup, List.find?] at ih ⊢
      cases hbeq : (k2 == k') with
      | true => simp [hbeq]
      | false => simpa [hbeq] using ih

theorem optGroup_foldl_groupPush {K V : Type} [DecidableEq K] (key : V → K) (l : List V)
    (k : K) : ∀ m : List (K × List V),
    optGroup (l.foldl (fun m v => groupPush m (key v) v) m) k =
      match optGroup m k with
      | some vs => some (vs ++ l.filter (fun v => key v == k))
      | none =>
        if (l.filter (fun v => key v == k)).isEmpty then none
        else some (l.filter (fun v => key v == k)) := by
  induction l with
  | nil =>
    intro m
    cases h : optGroup m k <;> simp [h]
  | cons v rest ih =>
    intro m
    simp only [List.foldl_cons]
    rw [ih (groupPush m (key v) v)]
    by_cases hk : key v = k
    · have h1 : optGroup (groupPush m (key v) v) k =
          some ((optGroup m k).getD [] ++ [v]) := by
        rw [hk]
        exact optGroup_groupPush_same m k v
      have hp : (key v == k) = true := beq_iff_eq.mpr hk
      rw [h1]
      simp only [List.filter_cons, hp]
      cases h2 : optGroup m k with
      | some vs => simp [h2]
      | none => simp [h2]
    · have h1 : optGroup (groupPush m (key v) v) k = optGroup m k :=
        optGroup_groupPush_other m (key v) k v (fun he => hk he.symm)
      have hp : (key v == k) = false := beq_eq_false_iff_ne.mpr hk
      rw [h1]
      simp only [List.filter_cons, hp]
      simp

theorem optGroup_groupByKey {K V : Type} [DecidableEq K] (key : V → K) (l : List V) (k : K) :
    optGroup (groupByKey key l) k =
      if (l.filter (fun v => key v == k)).isEmpty then none
      else some (l.filter (fun v => key v == k)) := by
  have h := optGroup_foldl_groupPush key l k []
  simpa [groupByKey, optGroup] using h

theorem contributorFirstPR_eq (prs : List PRWithReviews) (a : String) :
    contributorFirstPR prs a =
      firstPROf ((prs.map (fun it => it.pr)).filter (fun pr => pr.user.login == a)) := by
  have h := optGroup_groupByKey (fun pr : GitHubPullRequest => pr.user.login)
    (prs.map (fun it => it.pr)) a
  simp only [optGroup] at h
  simp only [contributorFirstPR]
  cases hf : (groupByKey (fun pr : GitHubPullRequest => pr.user.login)
      (prs.map (fun it => it.pr))).find? (fun kv => kv.1 == a) with
  | none =>
    rw [hf] at h
    by_cases hemp :
        ((prs.map (fun it => it.pr)).filter (fun pr => pr.user.login == a)).isEmpty = true
    · have he : (prs.map (fun it => it.pr)).filter (fun pr => pr.user.login == a) = [] :=
        List.isEmpty_iff.mp hemp
      rw [he]
      rfl
    · rw [if_neg hemp] at h
      exact absurd h (by simp)
  | some kv =>
    rw [hf] at h
    by_cases hemp :
        ((prs.map (fun it => it.pr)).filter (fun pr => pr.user.login == a)).isEmpty = true
    · rw [if_pos hemp] at h
      exact absurd h (by simp)
    · rw [if_neg hemp] at h
      have hkv : kv.2 = (prs.map (fun it => it.pr)).filter (fun pr => pr.user.login == a) := by
        simpa using h
      show firstPROf kv.2 = _
      rw [hkv]

theorem firstPROf_spec (l : List GitHubPullRequest) (h : l ≠ []) :
    ∃ fp, firstPROf l = some fp ∧ fp ∈ l ∧ ∀ x ∈ l, fp.created_at ≤ x.created_at := by
  have hperm := List.perm_insertionSort
    (fun a b : GitHubPullRequest => a.created_at ≤ b.created_at) l
  have hs := sorted_insertionSort_le (fun p : GitHubPullRequest => p.created_at) l
  have hne : List.insertionSort
      (fun a b : GitHubPullRequest => a.created_at ≤ b.created_at) l ≠ [] := by
    intro hnil
    rw [hnil] at hperm
    exact h (List.Perm.eq_nil hperm.symm)
  obtain ⟨fp, t, ht⟩ := List.exists_cons_of_ne_nil hne
  refine ⟨fp, ?h1, ?h2, ?h3⟩
  · simp only [firstPROf, ht, List.head?_cons]
  · refine hperm.mem_iff.mp ?m
    rw [ht]
    exact List.mem_cons_self fp t
  · intro x hx
    have hxs : x ∈ List.insertionSort
        (fun a b : GitHubPullRequest => a.created_at ≤ b.created_at) l :=
      hperm.mem_iff.mpr hx
    rw [ht] at hxs hs
    rcases List.mem_cons.mp hxs with rfl | hmem
    · exact le_refl _
    · exact List.rel_of_sorted_cons hs x hmem

/-- C7: in batches whose PR numbers are pairwise distinct and whose per-author
creation times are distinct, a PR is classified first-time exactly when it is
its author's chronologically earliest PR within the batch, and returning
otherwise; the emitted counters are the sizes of the two classes. -/
theorem C7_first_time_classification (prs : List PRWithReviews)
    (issues : List IssueWithDetails)
    (hnum : (prs.map (fun it => it.pr.number)).Nodup)
    (htime : ∀ it ∈ prs, ∀ it2 ∈ prs, it.pr.user.login = it2.pr.user.login →
      it.pr.number ≠ it2.pr.number → it.pr.created_at ≠ it2.pr.created_at) :
    (∀ it ∈ prs, (it ∈ (classifyPRs prs).1 ↔
        ∀ it2 ∈ prs, it2.pr.user.login = it.pr.user.login → it2 ≠ it →
          it.pr.created_at < it2.pr.created_at))
  ∧ (∀ it ∈ prs, (it ∈ (classifyPRs prs).2 ↔
        ¬ ∀ it2 ∈ prs, it2.pr.user.login = it.pr.user.login → it2 ≠ it →
          it.pr.created_at < it2.pr.created_at))
  ∧ (calculateContributorFrictionMetrics prs issues).firstTimePRs =
      (classifyPRs prs).1.length
  ∧ (calculateContributorFrictionMetrics prs issues).returningPRs =
      (classifyPRs prs).2.length := by
  have hinj : ∀ it ∈ prs, ∀ it2 ∈ prs, it.pr.number = it2.pr.number → it = it2 :=
    fun x hx y hy hxy => List.inj_on_of_nodup_map hnum hx hy hxy
  have hmain : ∀ it ∈ prs,
      ((match contributorFirstPR prs it.pr.user.login with
        | some firstPR => firstPR.number == it.pr.number
        | none => false) = true ↔
        ∀ it2 ∈ prs, it2.pr.user.login = it.pr.user.login → it2 ≠ it →
          it.pr.created_at < it2.pr.created_at) := by
    intro it hit
    have hitg : it.pr ∈ (prs.map (fun x => x.pr)).filter
        (fun pr => pr.user.login == it.pr.user.login) :=
      List.mem_filter.mpr ⟨List.mem_map_of_mem _ hit, by simp⟩
    obtain ⟨fp, hfp, hfpg, hfpmin⟩ := firstPROf_spec _ (List.ne_nil_of_mem hitg)
    have hcf : contributorFirstPR prs it.pr.user.login = some fp := by
      rw [contributorFirstPR_eq]
      exact hfp
    have hgmem : ∀ x ∈ (prs.map (fun x => x.pr)).filter
        (fun pr => pr.user.login == it.pr.user.login),
        (∃ itx ∈ prs, itx.pr = x) ∧ x.user.login = it.pr.user.login := by
      intro x hx
      obtain ⟨hxm, hxl⟩ := List.mem_filter.mp hx
      obtain ⟨itx, hitx, rfl⟩ := List.mem_map.mp hxm
      exact ⟨⟨itx, hitx, rfl⟩, by simpa using hxl⟩
    rw [hcf]
    simp only [beq_iff_eq]
    obtain ⟨⟨itf, hitf, hfeq⟩, hflogin⟩ := hgmem fp hfpg
    constructor
    · intro hn it2 hit2 hlogin2 hne2
      have hfpit : fp = it.pr := by
        have : itf = it := hinj itf hitf it hit (by rw [hfeq, hn])
        rw [← hfeq, this]
      have hit2g : it2.pr ∈ (prs.map (fun x => x.pr)).filter
          (fun pr => pr.user.login == it.pr.user.login) :=
        List.mem_filter.mpr ⟨List.mem_map_of_mem _ hit2, by simp [hlogin2]⟩
      have hle : it.pr.created_at ≤ it2.pr.created_at := by
        rw [← hfpit]
        exact hfpmin _ hit2g
      have hnumne : it.pr.number ≠ it2.pr.number := by
        intro he
        exact hne2 (hinj it2 hit2 it hit he.symm)
      have := htime it hit it2 hit2 hlogin2.symm hnumne
      omega
    · intro hmin
      by_contra hne
      have hitfne : itf ≠ it := by
        intro he
        exact hne (by rw [← hfeq, he])
      have hlt := hmin itf hitf (by rw [hfeq]; exact hflogin) hitfne
      have hge : fp.created_at ≤ it.pr.created_at := hfpmin _ hitg
      rw [← hfeq] at hge
      omega
  refine ⟨?c1, ?c2, ?c3, ?c4⟩
  · intro it hit
    rw [show (classifyPRs prs).1 = prs.filter (fun item =>
        match contributorFirstPR prs item.pr.user.login with
        | some firstPR => firstPR.number == item.pr.number
        | none => false) from by
      simp [classifyPRs, List.partition_eq_filter_filter]]
    rw [List.mem_filter]
    constructor
    · intro ⟨_, hp⟩
      exact (hmain it hit).mp hp
    · intro h
      exact ⟨hit, (hmain it hit).mpr h⟩
  · intro it hit
    rw [show (classifyPRs prs).2 = prs.filter (fun item => !(
        match contributorFirstPR prs item.pr.user.login with
        | some firstPR => firstPR.number == item.pr.number
        | none => false)) from by
      simp only [classifyPRs, List.partition_eq_filter_filter]
      rfl]
    rw [List.mem_filter]
    constructor
    · intro ⟨_, hp⟩
      rw [Bool.not_eq_true'] at hp
      intro hforall
      rw [(hmain it hit).mpr hforall] at hp
      exact absurd hp (by simp)
    · intro h
      refine ⟨hit, ?pb⟩
      rw [Bool.not_eq_true']
      cases hb : (match contributorFirstPR prs it.pr.user.login with
        | some firstPR => firstPR.number == it.pr.number
        | none => false) with
      | false => rfl
      | true => exact absurd ((hmain it hit).mp hb) h
  · simp only [calculateContributorFrictionMetrics]
  · simp only [calculateContributorFrictionMetrics]

/-- C7 witness: author "bob" opens PR #1 (created earlier) and PR #2 in the same
batch; the hypotheses hold, the classification theorem applies, PR #1 is
classified first-time, PR #2 returning, and firstTimePRs counts exactly 1. -/
theorem C7_first_time_classification_witness :
    (([⟨exBobPR1, []⟩, ⟨exBobPR2, []⟩] : List PRWithReviews).map
        (fun it => it.pr.number)).Nodup
  ∧ (calculateContributorFrictionMetrics [⟨exBobPR1, []⟩, ⟨exBobPR2, []⟩] []).firstTimePRs =
      (classifyPRs [⟨exBobPR1, []⟩, ⟨exBobPR2, []⟩]).1.length
  ∧ (calculateContributorFrictionMetrics [⟨exBobPR1, []⟩, ⟨exBobPR2, []⟩] []).firstTimePRs = 1
  ∧ (calculateContributorFrictionMetrics [⟨exBobPR1, []⟩, ⟨exBobPR2, []⟩] []).returningPRs = 1
  ∧ (⟨exBobPR1, []⟩ : PRWithReviews) ∈ (classifyPRs [⟨exBobPR1, []⟩, ⟨exBobPR2, []⟩]).1
  ∧ (⟨exBobPR2, []⟩ : PRWithReviews) ∈ (classifyPRs [⟨exBobPR1, []⟩, ⟨exBobPR2, []⟩]).2 :=
  ⟨by decide,
   (C7_first_time_classification [⟨exBobPR1, []⟩, ⟨exBobPR2, []⟩] []
     (by decide) (by decide)).2.2.1,
   by decide, by decide, by decide, by decide⟩

theorem lookupAssoc_updateAssoc_self {V : Type} (dflt : V) (m : List (String × V))
    (u : String) (f : V → V) :
    lookupAssoc (updateAssoc dflt m u f) u = some (f ((lookupAssoc m u).getD dflt)) := by
  induction m with
  | nil => simp [updateAssoc, lookupAssoc]
  | cons head tail ih =>
    obtain ⟨k, v⟩ := head
    by_cases hk : k = u
    · subst hk
      simp [updateAssoc, lookupAssoc]
    · simp [updateAssoc, lookupAssoc, hk, ih]

theorem lookupAssoc_updateAssoc_other {V : Type} (dflt : V) (m : List (String × V))
    (u k' : String) (f : V → V) (h : k' ≠ u) :
    lookupAssoc (updateAssoc dflt m u f) k' = lookupAssoc m k' := by
  induction m with
  | nil =>
    have h2 : ¬ u = k' := fun he => h he.symm
    simp [updateAssoc, lookupAssoc, h2]
  | cons head tail ih =>
    obtain ⟨k, v⟩ := head
    by_cases hk : k = u
    · subst hk
      have h2 : ¬ k = k' := fun he => h he.symm
      simp [updateAssoc, lookupAssoc, h2]
    · simp [updateAssoc, lookupAssoc, hk, ih]

theorem mem_keys_updateAssoc {V : Type} (dflt : V) (m : List (String × V))
    (u : String) (f : V → V) (x : String)
    (hx : x ∈ (updateAssoc dflt m u f).map Prod.fst) :
    x ∈ m.map Prod.fst ∨ x = u := by
  induction m with
  | nil =>
    simp [updateAssoc] at hx
    exact Or.inr hx
  | cons head tail ih =>
    obtain ⟨k, v⟩ := head
    by_cases hk : k = u
    · subst hk
      rw [show updateAssoc dflt ((k, v) :: tail) k f = (k, f v) :: tail from by
        simp [updateAssoc]] at hx
      exact Or.inl hx
    · simp only [updateAssoc, if_neg hk, List.map_cons, List.mem_cons] at hx
      rcases hx with rfl | hx
      · exact Or.inl (by simp)
      · rcases ih hx with h1 | h1
        · exact Or.inl (List.mem_cons_of_mem _ h1)
        · exact Or.inr h1

theorem keysNodup_updateAssoc {V : Type} (dflt : V) (m : List (String × V))
    (u : String) (f : V → V) (hnd : (m.map Prod.fst).Nodup) :
    ((updateAssoc dflt m u f).map Prod.fst).Nodup := by
  induction m with
  | nil => simp [updateAssoc]
  | cons head tail ih =>
    obtain ⟨k, v⟩ := head
    simp only [List.map_cons, List.nodup_cons] at hnd
    by_cases hk : k = u
    · subst hk
      rw [show updateAssoc dflt ((k, v) :: tail) k f = (k, f v) :: tail from by
        simp [updateAssoc]]
      simp only [List.map_cons, List.nodup_cons]
      exact hnd
    · simp only [updateAssoc, if_neg hk, List.map_cons, List.nodup_cons]
      refine ⟨?notmem, ih hnd.2⟩
      intro hmem
      rcases mem_keys_updateAssoc dflt tail u f k hmem with h1 | h1
      · exact hnd.1 h1
      · exact hk h1

theorem mem_of_keysNodup {V : Type} (m : List (String × V))
    (hnd : (m.map Prod.fst).Nodup) (u : String) (s : V) (hm : (u, s) ∈ m) :
    lookupAssoc m u = some s := by
  induction m with
  | nil => cases hm
  | cons head tail ih =>
    obtain ⟨k, v⟩ := head
    simp only [List.map_cons, List.nodup_cons] at hnd
    rcases List.mem_cons.mp hm with heq | hmem
    · cases heq
      simp [lookupAssoc]
    · have hku : ¬ k = u := by
        intro he
        subst he
        exact hnd.1 (by simpa using List.mem_map_of_mem Prod.fst hmem)
      simp only [lookupAssoc, if_neg hku]
      exact ih hnd.2 hmem

theorem addStats_zero_left (s : ReviewerStats) : addStats zeroStats s = s := by
  cases s
  simp [addStats, zeroStats]

theorem addStats_zero_right (s : ReviewerStats) : addStats s zeroStats = s := by
  cases s
  simp [addStats, zeroStats]

theorem addStats_assoc (a b c : ReviewerStats) :
    addStats (addStats a b) c = addStats a (addStats b c) := by
  cases a
  cases b
  cases c
  simp [addStats, Nat.add_assoc, add_assoc]

theorem bumpStats_eq_addStats (fid : Int) (t : ℚ) (r : GitHubReview) (s : ReviewerStats) :
    bumpStats fid t r s = addStats s (reviewContrib fid t r) := by
  cases s
  simp only [bumpStats, reviewContrib, zeroStats, addStats]
  split_ifs <;> simp

theorem reviewContrib_components (fid : Int) (t : ℚ) (r : GitHubReview) :
    (reviewContrib fid t r).prsReviewed = 1
  ∧ (reviewContrib fid t r).approvals = (if r.state = ("APPROVED") then 1 else 0)
  ∧ (reviewContrib fid t r).changesRequested = (if r.state = ("CHANGES_REQUESTED") then 1 else 0)
  ∧ (reviewContrib fid t r).commentsOnly = (if r.state = ("COMMENTED") then 1 else 0)
  ∧ (reviewContrib fid t r).totalTimeToFirstReview = (if r.id = fid then t else 0)
  ∧ (reviewContrib fid t r).reviewCount = (if r.id = fid then 1 else 0) := by
  simp only [reviewContrib, bumpStats, zeroStats]
  split_ifs <;> simp_all

theorem contribSum_components (fid : Int) (t : ℚ) (u : String) (rs : List GitHubReview) :
    (contribSum fid t u rs).prsReviewed =
      (rs.filter (fun r => reviewAuthor r == some u)).length
  ∧ (contribSum fid t u rs).approvals =
      (rs.filter (fun r => (reviewAuthor r == some u) && (r.state == "APPROVED"))).length
  ∧ (contribSum fid t u rs).changesRequested =
      (rs.filter (fun r => (reviewAuthor r == some u) && (r.state == "CHANGES_REQUESTED"))).length
  ∧ (contribSum fid t u rs).commentsOnly =
      (rs.filter (fun r => (reviewAuthor r == some u) && (r.state == "COMMENTED"))).length
  ∧ (contribSum fid t u rs).totalTimeToFirstReview =
      ((rs.filter (fun r => (reviewAuthor r == some u) && (r.id == fid))).length : ℚ) * t
  ∧ (contribSum fid t u rs).reviewCount =
      (rs.filter (fun r => (reviewAuthor r == some u) && (r.id == fid))).length := by
  induction rs with
  | nil => simp [contribSum, zeroStats]
  | cons r rest ih =>
    obtain ⟨ih1, ih2, ih3, ih4, ih5, ih6⟩ := ih
    obtain ⟨hc1, hc2, hc3, hc4, hc5, hc6⟩ := reviewContrib_components fid t r
    by_cases ha : reviewAuthor r = some u
    · have hab : (reviewAuthor r == some u) = true := beq_iff_eq.mpr ha
      simp only [contribSum, if_pos ha, addStats]
      refine ⟨?g1, ?g2, ?g3, ?g4, ?g5, ?g6⟩
      · rw [hc1, ih1]
        simp [List.filter_cons, hab]
        try omega
      · rw [hc2, ih2]
        by_cases hs : r.state = ("APPROVED")
        · have hb : (r.state == "APPROVED") = true := beq_iff_eq.mpr hs
          simp [List.filter_cons, hab, hs, hb]
          try omega
        · have hb : (r.state == "APPROVED") = false := beq_eq_false_iff_ne.mpr hs
          simp [List.filter_cons, hab, hs, hb]
      · rw [hc3, ih3]
        by_cases hs : r.state = ("CHANGES_REQUESTED")
        · have hb : (r.state == "CHANGES_REQUESTED") = true := beq_iff_eq.mpr hs
          simp [List.filter_cons, hab, hs, hb]
          try omega
        · have hb : (r.state == "CHANGES_REQUESTED") = false := beq_eq_false_iff_ne.mpr hs
          simp [List.filter_cons, hab, hs, hb]
      · rw [hc4, ih4]
        by_cases hs : r.state = ("COMMENTED")
        · have hb : (r.state == "COMMENTED") = true := beq_iff_eq.mpr hs
          simp [List.filter_cons, hab, hs, hb]
          try omega
        · have hb : (r.state == "COMMENTED") = false := beq_eq_false_iff_ne.mpr hs
          simp [List.filter_cons, hab, hs, hb]
      · rw [hc5, ih5]
        by_cases hs : r.id = fid
        · have hb : (r.id == fid) = true := beq_iff_eq.mpr hs
          simp [List.filter_cons, hab, hs, hb]
          ring
        · have hb : (r.id == fid) = false := beq_eq_false_iff_ne.mpr hs
          simp [List.filter_cons, hab, hs, hb]
      · rw [hc6, ih6]
        by_cases hs : r.id = fid
        · have hb : (r.id == fid) = true := beq_iff_eq.mpr hs
          simp [List.filter_cons, hab, hs, hb]
          try omega
        · have hb : (r.id == fid) = false := beq_eq_false_iff_ne.mpr hs
          simp [List.filter_cons, hab, hs, hb]
    · have hab : (reviewAuthor r == some u) = false := beq_eq_false_iff_ne.mpr ha
      simp only [contribSum, if_neg ha, List.filter_cons, hab, Bool.false_and]
      simpa using ⟨ih1, ih2, ih3, ih4, ih5, ih6⟩

theorem getStats_foldl_reviews (fid : Int) (t : ℚ) (rs : List GitHubReview)
    (m : List (String × ReviewerStats)) (u : String) :
    getStats (rs.foldl (fun m r =>
      match r.user with
      | none => m
      | some usr => updateAssoc zeroStats m usr.login (bumpStats fid t r)) m) u =
    addStats (getStats m u) (contribSum fid t u rs) := by
  induction rs generalizing m with
  | nil => simp [contribSum, addStats_zero_right]
  | cons r rest ih =>
    simp only [List.foldl_cons]
    rw [ih]
    cases hu : r.user with
    | none =>
      have hau : reviewAuthor r ≠ some u := by simp [reviewAuthor, hu]
      simp [contribSum, hau]
    | some usr =>
      by_cases hl : usr.login = u
      · have hau : reviewAuthor r = some u := by simp [reviewAuthor, hu, hl]
        have h1 : getStats (updateAssoc zeroStats m usr.login (bumpStats fid t r)) u =
            bumpStats fid t r (getStats m u) := by
          unfold getStats
          rw [hl, lookupAssoc_updateAssoc_self]
          rfl
        rw [h1, bumpStats_eq_addStats]
        rw [show contribSum fid t u (r :: rest) =
          addStats (reviewContrib fid t r) (contribSum fid t u rest) from by
            simp [contribSum, hau]]
        rw [addStats_assoc]
      · have hau : reviewAuthor r ≠ some u := by simp [reviewAuthor, hu, hl]
        have h1 : getStats (updateAssoc zeroStats m usr.login (bumpStats fid t r)) u =
            getStats m u := by
          unfold getStats
          rw [lookupAssoc_updateAssoc_other _ _ _ _ _ (fun he => hl he.symm)]
        rw [h1]
        rw [show contribSum fid t u (r :: rest) = contribSum fid t u rest from by
          simp [contribSum, hau]]

theorem getStats_processPRReviews (m : List (String × ReviewerStats))
    (item : PRWithReviews) (u : String) :
    getStats (processPRReviews m item) u =
      addStats (getStats m u) (perPRContrib u item) := by
  simp only [processPRReviews, perPRContrib]
  by_cases he : (humanReviewsOf item.reviews).isEmpty
  · simp [he, addStats_zero_right]
  · simp only [he, Bool.false_eq_true, if_false]
    exact getStats_foldl_reviews _ _ _ m u

theorem getStats_reviewerStatsMap (prs : List PRWithReviews) (u : String) :
    getStats (reviewerStatsMap prs) u = statsSpecSum prs u := by
  suffices h : ∀ m, getStats (prs.foldl processPRReviews m) u =
      addStats (getStats m u) (statsSpecSum prs u) by
    have h2 := h []
    rw [show getStats [] u = zeroStats from rfl, addStats_zero_left] at h2
    exact h2
  induction prs with
  | nil =>
    intro m
    simp [statsSpecSum, addStats_zero_right]
  | cons item rest ih =>
    intro m
    simp only [List.foldl_cons]
    rw [ih, getStats_processPRReviews]
    rw [show statsSpecSum (item :: rest) u =
      addStats (perPRContrib u item) (statsSpecSum rest u) from by
        simp [statsSpecSum]]
    rw [addStats_assoc]

theorem keysNodup_foldl_reviews (fid : Int) (t : ℚ) (rs : List GitHubReview)
    (m : List (String × ReviewerStats))
    (hnd : (m.map Prod.fst).Nodup) :
    ((rs.foldl (fun m r =>
      match r.user with
      | none => m
      | some usr => updateAssoc zeroStats m usr.login (bumpStats fid t r)) m).map
        Prod.fst).Nodup := by
  induction rs generalizing m with
  | nil => exact hnd
  | cons r rest ih =>
    simp only [List.foldl_cons]
    cases hu : r.user with
    | none => exact ih m hnd
    | some usr => exact ih _ (keysNodup_updateAssoc _ _ _ _ hnd)

theorem keysNodup_reviewerStatsMap (prs : List PRWithReviews) :
    ((reviewerStatsMap prs).map Prod.fst).Nodup := by
  suffices h : ∀ m : List (String × ReviewerStats), (m.map Prod.fst).Nodup →
      ((prs.foldl processPRReviews m).map Prod.fst).Nodup by
    exact h [] (by simp)
  induction prs with
  | nil => intro m hm; exact hm
  | cons item rest ih =>
    intro m hm
    refine ih _ ?step
    simp only [processPRReviews]
    by_cases he : (humanReviewsOf item.reviews).isEmpty
    · simpa [he] using hm
    · simp only [he, Bool.false_eq_true, if_false]
      exact keysNodup_foldl_reviews _ _ _ m hm

theorem mem_reviewerStatsMap_eq (prs : List PRWithReviews) (u : String)
    (s : ReviewerStats) (hm : (u, s) ∈ reviewerStatsMap prs) :
    s = statsSpecSum prs u := by
  have h1 := mem_of_keysNodup _ (keysNodup_reviewerStatsMap prs) u s hm
  have h2 := getStats_reviewerStatsMap prs u
  rw [getStats, h1] at h2
  simpa using h2

theorem length_filter_and {α : Type} (p q : α → Bool) (l : List α) :
    (l.filter (fun a => p a && q a)).length = ((l.filter p).filter q).length := by
  induction l with
  | nil => rfl
  | cons a t ih =>
    cases hp : p a <;> cases hq : q a <;>
      simp [List.filter_cons, hp, hq, ih]

theorem filter_id_unique (hr : List GitHubReview) (first : GitHubReview)
    (hmem : first ∈ hr) (hnd : (hr.map (fun r => r.id)).Nodup)
    (p : GitHubReview → Bool) :
    (hr.filter (fun r => p r && (r.id == first.id))).length =
      if p first then 1 else 0 := by
  induction hr with
  | nil => cases hmem
  | cons r rest ih =>
    simp only [List.map_cons, List.nodup_cons] at hnd
    rcases List.mem_cons.mp hmem with rfl | hmem2
    · have hrest : rest.filter (fun x => p x && (x.id == first.id)) = [] := by
        refine List.filter_eq_nil_iff.mpr ?h
        intro x hx
        have hb : (x.id == first.id) = false := by
          refine beq_eq_false_iff_ne.mpr ?ne
          intro he
          refine hnd.1 ?c
          rw [← he]
          exact List.mem_map_of_mem _ hx
        simp [hb]
      by_cases hp : p first
      · simp [List.filter_cons, hp, hrest]
      · simp [List.filter_cons, hp, hrest]
    · have hrid : (r.id == first.id) = false := by
        refine beq_eq_false_iff_ne.mpr ?ne2
        intro he
        refine hnd.1 ?c2
        rw [he]
        exact List.mem_map_of_mem _ hmem2
      simp only [List.filter_cons, hrid, Bool.and_false]
      simpa using ih hmem2 hnd.2

theorem sortedBySubmitted_head (hr : List GitHubReview) (hne : hr ≠ []) :
    (sortedBySubmitted hr).head? = some ((sortedBySubmitted hr).headD dummyReview)
  ∧ (sortedBySubmitted hr).headD dummyReview ∈ hr
  ∧ ∀ r ∈ hr, ((sortedBySubmitted hr).headD dummyReview).submitted_at ≤ r.submitted_at := by
  have hperm : (sortedBySubmitted hr).Perm hr :=
    List.perm_insertionSort (fun a b : GitHubReview => a.submitted_at ≤ b.submitted_at) hr
  have hs : List.Sorted (fun a b : GitHubReview => a.submitted_at ≤ b.submitted_at)
      (sortedBySubmitted hr) :=
    sorted_insertionSort_le (fun r : GitHubReview => r.submitted_at) hr
  have hne2 : sortedBySubmitted hr ≠ [] := by
    intro hnil
    rw [hnil] at hperm
    exact hne (List.Perm.eq_nil hperm.symm)
  obtain ⟨fst, tl, hcons⟩ := List.exists_cons_of_ne_nil hne2
  refine ⟨?h1, ?h2, ?h3⟩
  · rw [hcons]
    rfl
  · rw [hcons, List.headD_cons]
    refine hperm.mem_iff.mp ?m
    rw [hcons]
    exact List.mem_cons_self _ _
  · intro r hrm
    rw [hcons, List.headD_cons]
    have hrs : r ∈ sortedBySubmitted hr := hperm.mem_iff.mpr hrm
    rw [hcons] at hrs hs
    rcases List.mem_cons.mp hrs with rfl | hmem
    · exact le_refl _
    · exact List.rel_of_sorted_cons hs r hmem

theorem perPRContrib_components (u : String) (item : PRWithReviews)
    (hnd : ((humanReviewsOf item.reviews).map (fun r => r.id)).Nodup) :
    (perPRContrib u item).prsReviewed = (reviewsBy u item).length
  ∧ (perPRContrib u item).approvals =
      ((reviewsBy u item).filter (fun r => r.state == "APPROVED")).length
  ∧ (perPRContrib u item).changesRequested =
      ((reviewsBy u item).filter (fun r => r.state == "CHANGES_REQUESTED")).length
  ∧ (perPRContrib u item).commentsOnly =
      ((reviewsBy u item).filter (fun r => r.state == "COMMENTED")).length
  ∧ (perPRContrib u item).totalTimeToFirstReview =
      (if (match firstHumanReview item with
           | some fr => reviewAuthor fr == some u
           | none => false) = true then firstReviewTime item else 0)
  ∧ (perPRContrib u item).reviewCount =
      (if (match firstHumanReview item with
           | some fr => reviewAuthor fr == some u
           | none => false) = true then 1 else 0) := by
  by_cases he : (humanReviewsOf item.reviews).isEmpty
  · have hnil : humanReviewsOf item.reviews = [] := List.isEmpty_iff.mp he
    simp [perPRContrib, he, reviewsBy, hnil, firstHumanReview, sortedBySubmitted,
      zeroStats]
  · have hne : humanReviewsOf item.reviews ≠ [] := by
      intro hnil
      rw [hnil] at he
      exact he rfl
    obtain ⟨hhead, hmem, hmin⟩ := sortedBySubmitted_head (humanReviewsOf item.reviews) hne
    have hfirst : firstHumanReview item =
        some ((sortedBySubmitted (humanReviewsOf item.reviews)).headD dummyReview) := hhead
    obtain ⟨hc1, hc2, hc3, hc4, hc5, hc6⟩ :=
      contribSum_components
        ((sortedBySubmitted (humanReviewsOf item.reviews)).headD dummyReview).id
        ((differenceInHours
          ((sortedBySubmitted (humanReviewsOf item.reviews)).headD dummyReview).submitted_at
          item.pr.created_at : Int) : ℚ)
        u (humanReviewsOf item.reviews)
    have hunfold : perPRContrib u item =
        contribSum
          ((sortedBySubmitted (humanReviewsOf item.reviews)).headD dummyReview).id
          ((differenceInHours
            ((sortedBySubmitted (humanReviewsOf item.reviews)).headD dummyReview).submitted_at
            item.pr.created_at : Int) : ℚ)
          u (humanReviewsOf item.reviews) := by
      simp only [perPRContrib, he, Bool.false_eq_true, if_false]
    have hone := filter_id_unique (humanReviewsOf item.reviews) _ hmem hnd
      (fun r => reviewAuthor r == some u)
    refine ⟨?g1, ?g2, ?g3, ?g4, ?g5, ?g6⟩
    · rw [hunfold, hc1]
      rfl
    · rw [hunfold, hc2, reviewsBy, length_filter_and]
    · rw [hunfold, hc3, reviewsBy, length_filter_and]
    · rw [hunfold, hc4, reviewsBy, length_filter_and]
    · rw [hunfold, hc5, hone, hfirst]
      by_cases hp : (reviewAuthor
          ((sortedBySubmitted (humanReviewsOf item.reviews)).headD dummyReview) == some u) = true
      · simp [hp, firstReviewTime, hfirst]
      · simp [hp, firstReviewTime, hfirst]
    · rw [hunfold, hc6, hone, hfirst]

theorem statsSpecSum_components (prs : List PRWithReviews) (u : String)
    (hnd : ∀ item ∈ prs, ((humanReviewsOf item.reviews).map (fun r => r.id)).Nodup) :
    (statsSpecSum prs u).prsReviewed = prsReviewedSpec prs u
  ∧ (statsSpecSum prs u).approvals = dispositionCountSpec ("APPROVED") prs u
  ∧ (statsSpecSum prs u).changesRequested = dispositionCountSpec ("CHANGES_REQUESTED") prs u
  ∧ (statsSpecSum prs u).commentsOnly = dispositionCountSpec ("COMMENTED") prs u
  ∧ (statsSpecSum prs u).totalTimeToFirstReview = firstSumSpec prs u
  ∧ (statsSpecSum prs u).reviewCount = firstCountSpec prs u := by
  induction prs with
  | nil =>
    simp [statsSpecSum, prsReviewedSpec, dispositionCountSpec, firstSumSpec,
      firstCountSpec, firstReviewPRsOf, zeroStats]
  | cons item rest ih =>
    obtain ⟨ih1, ih2, ih3, ih4, ih5, ih6⟩ :=
      ih (fun x hx => hnd x (List.mem_cons_of_mem _ hx))
    obtain ⟨hp1, hp2, hp3, hp4, hp5, hp6⟩ :=
      perPRContrib_components u item (hnd item (List.mem_cons_self _ _))
    have hsum : statsSpecSum (item :: rest) u =
        addStats (perPRContrib u item) (statsSpecSum rest u) := by
      simp [statsSpecSum]
    rw [hsum]
    refine ⟨?s1, ?s2, ?s3, ?s4, ?s5, ?s6⟩
    · show (perPRContrib u item).prsReviewed + (statsSpecSum rest u).prsReviewed = _
      rw [hp1, ih1]
      simp [prsReviewedSpec]
    · show (perPRContrib u item).approvals + (statsSpecSum rest u).approvals = _
      rw [hp2, ih2]
      simp [dispositionCountSpec]
    · show (perPRContrib u item).changesRequested + (statsSpecSum rest u).changesRequested = _
      rw [hp3, ih3]
      simp [dispositionCountSpec]
    · show (perPRContrib u item).commentsOnly + (statsSpecSum rest u).commentsOnly = _
      rw [hp4, ih4]
      simp [dispositionCountSpec]
    · show (perPRContrib u item).totalTimeToFirstReview +
          (statsSpecSum rest u).totalTimeToFirstReview = _
      rw [hp5, ih5]
      by_cases hb : (match firstHumanReview item with
          | some fr => reviewAuthor fr == some u
          | none => false) = true
      · simp [firstSumSpec, firstReviewPRsOf, List.filter_cons, hb]
      · simp [firstSumSpec, firstReviewPRsOf, List.filter_cons, hb]
    · show (perPRContrib u item).reviewCount + (statsSpecSum rest u).reviewCount = _
      rw [hp6, ih6]
      by_cases hb : (match firstHumanReview item with
          | some fr => reviewAuthor fr == some u
          | none => false) = true
      · simp [firstCountSpec, firstReviewPRsOf, List.filter_cons, hb]
        omega
      · simp [firstCountSpec, firstReviewPRsOf, List.filter_cons, hb]

theorem lookupAssoc_eq_none_iff {V : Type} (m : List (String × V)) (u : String) :
    lookupAssoc m u = none ↔ u ∉ m.map Prod.fst := by
  induction m with
  | nil => simp [lookupAssoc]
  | cons head tail ih =>
    obtain ⟨k, v⟩ := head
    by_cases hk : k = u
    · subst hk
      simp [lookupAssoc]
    · have hk2 : ¬ u = k := fun he => hk he.symm
      simp [lookupAssoc, hk, ih, hk2]

theorem bumpStats_prsReviewed (fid : Int) (t : ℚ) (r : GitHubReview) (s : ReviewerStats) :
    (bumpStats fid t r s).prsReviewed = s.prsReviewed + 1 := by
  rw [bumpStats_eq_addStats]
  show s.prsReviewed + (reviewContrib fid t r).prsReviewed = _
  rw [(reviewContrib_components fid t r).1]

theorem entry_pos_updateAssoc {m : List (String × ReviewerStats)} {u : String}
    {f : ReviewerStats → ReviewerStats} (hf : ∀ s, 1 ≤ (f s).prsReviewed)
    (hm : ∀ kv ∈ m, 1 ≤ kv.2.prsReviewed) :
    ∀ kv ∈ updateAssoc zeroStats m u f, 1 ≤ kv.2.prsReviewed := by
  induction m with
  | nil =>
    intro kv hkv
    simp only [updateAssoc, List.mem_singleton] at hkv
    subst hkv
    exact hf zeroStats
  | cons head tail ih =>
    intro kv hkv
    obtain ⟨k, v⟩ := head
    simp only [updateAssoc] at hkv
    split at hkv
    · rcases List.mem_cons.mp hkv with rfl | hmem
      · exact hf v
      · exact hm _ (List.mem_cons_of_mem _ hmem)
    · rcases List.mem_cons.mp hkv with rfl | hmem
      · exact hm _ (List.mem_cons_self _ _)
      · exact ih (fun kv2 hkv2 => hm kv2 (List.mem_cons_of_mem _ hkv2)) kv hmem

theorem entry_pos_foldl_reviews (fid : Int) (t : ℚ) (rs : List GitHubReview)
    (m : List (String × ReviewerStats)) (hm : ∀ kv ∈ m, 1 ≤ kv.2.prsReviewed) :
    ∀ kv ∈ rs.foldl (fun m r =>
      match r.user with
      | none => m
      | some usr => updateAssoc zeroStats m usr.login (bumpStats fid t r)) m,
      1 ≤ kv.2.prsReviewed := by
  induction rs generalizing m with
  | nil => exact hm
  | cons r rest ih =>
    simp only [List.foldl_cons]
    cases hu : r.user with
    | none => exact ih m hm
    | some usr =>
      refine ih _ (entry_pos_updateAssoc (fun s => ?hb) hm)
      rw [bumpStats_prsReviewed]
      omega

theorem entry_pos_reviewerStatsMap (prs : List PRWithReviews) :
    ∀ kv ∈ reviewerStatsMap prs, 1 ≤ kv.2.prsReviewed := by
  suffices h : ∀ m, (∀ kv ∈ m, 1 ≤ kv.2.prsReviewed) →
      ∀ kv ∈ prs.foldl processPRReviews m, 1 ≤ kv.2.prsReviewed by
    exact h [] (by simp)
  induction prs with
  | nil => intro m hm; exact hm
  | cons item rest ih =>
    intro m hm
    refine ih _ ?step
    simp only [processPRReviews]
    by_cases he : (humanReviewsOf item.reviews).isEmpty
    · simpa [he] using hm
    · simp only [he, Bool.false_eq_true, if_false]
      exact entry_pos_foldl_reviews _ _ _ m hm

theorem map_username_insightOfEntry (entries : List (String × ReviewerStats)) :
    (entries.map insightOfEntry).map (fun i => i.username) = entries.map Prod.fst := by
  rw [List.map_map]
  rfl

/-- C6: for every reviewer in the emitted top-reviewers list, prsReviewed
counts every human review they authored (dismissed included), the three
disposition counters count only APPROVED / CHANGES_REQUESTED / COMMENTED
reviews, time-to-first-review is attributed only for the PR's earliest human
review and avgTimeToFirstReview is that sum over that count (0 when none), and
topReviewers is THE list of reviewers sorted by prsReviewed descending
truncated to at most 10 entries: there is a full ranking list L, sorted
descending, whose usernames are pairwise distinct and are exactly the
reviewers with at least one authored human review, whose every entry carries
the exact per-reviewer statistics, with topReviewers = L.take 10.  Batches are
assumed to carry distinct review ids per PR (the code keys the first-review
test on review.id). -/
theorem C6_reviewer_insights (prs : List PRWithReviews)
    (hnd : ∀ item ∈ prs, ((humanReviewsOf item.reviews).map (fun r => r.id)).Nodup) :
    (∀ ins ∈ (calculateReviewerInsightsMetrics prs).topReviewers,
        ins.prsReviewed = prsReviewedSpec prs ins.username
      ∧ ins.approvals = dispositionCountSpec ("APPROVED") prs ins.username
      ∧ ins.changesRequested = dispositionCountSpec ("CHANGES_REQUESTED") prs ins.username
      ∧ ins.commentsOnly = dispositionCountSpec ("COMMENTED") prs ins.username
      ∧ ins.avgTimeToFirstReview =
          (if firstCountSpec prs ins.username = 0 then 0
           else firstSumSpec prs ins.username / (firstCountSpec prs ins.username : ℚ)))
  ∧ List.Sorted (fun a b : ReviewerInsight => b.prsReviewed ≤ a.prsReviewed)
      (calculateReviewerInsightsMetrics prs).topReviewers
  ∧ (calculateReviewerInsightsMetrics prs).topReviewers.length ≤ 10
  ∧ (∀ item ∈ prs, ∀ fr, firstHumanReview item = some fr →
      fr ∈ humanReviewsOf item.reviews ∧
      ∀ r ∈ humanReviewsOf item.reviews, fr.submitted_at ≤ r.submitted_at)
  ∧ (∃ L : List ReviewerInsight,
        (calculateReviewerInsightsMetrics prs).topReviewers = L.take 10
      ∧ List.Sorted (fun a b : ReviewerInsight => b.prsReviewed ≤ a.prsReviewed) L
      ∧ (L.map (fun i => i.username)).Nodup
      ∧ (∀ u : String, u ∈ L.map (fun i => i.username) ↔ 0 < prsReviewedSpec prs u)
      ∧ (∀ ins ∈ L,
            ins.prsReviewed = prsReviewedSpec prs ins.username
          ∧ ins.approvals = dispositionCountSpec ("APPROVED") prs ins.username
          ∧ ins.changesRequested = dispositionCountSpec ("CHANGES_REQUESTED") prs ins.username
          ∧ ins.commentsOnly = dispositionCountSpec ("COMMENTED") prs ins.username
          ∧ ins.avgTimeToFirstReview =
              (if firstCountSpec prs ins.username = 0 then 0
               else firstSumSpec prs ins.username / (firstCountSpec prs ins.username : ℚ)))) := by
  have htop : (calculateReviewerInsightsMetrics prs).topReviewers = topReviewersOf prs := by
    simp [calculateReviewerInsightsMetrics]
  have hall : ∀ ins ∈ List.insertionSort
      (fun a b : ReviewerInsight => b.prsReviewed ≤ a.prsReviewed)
      ((reviewerStatsMap prs).map insightOfEntry),
        ins.prsReviewed = prsReviewedSpec prs ins.username
      ∧ ins.approvals = dispositionCountSpec ("APPROVED") prs ins.username
      ∧ ins.changesRequested = dispositionCountSpec ("CHANGES_REQUESTED") prs ins.username
      ∧ ins.commentsOnly = dispositionCountSpec ("COMMENTED") prs ins.username
      ∧ ins.avgTimeToFirstReview =
          (if firstCountSpec prs ins.username = 0 then 0
           else firstSumSpec prs ins.username / (firstCountSpec prs ins.username : ℚ)) := by
    intro ins h1
    rw [List.mem_insertionSort] at h1
    obtain ⟨e, he, rfl⟩ := List.mem_map.mp h1
    obtain ⟨u, s⟩ := e
    have hspec : s = statsSpecSum prs u := mem_reviewerStatsMap_eq prs u s he
    obtain ⟨h1', h2', h3', h4', h5', h6'⟩ := statsSpecSum_components prs u hnd
    subst hspec
    refine ⟨?e1, ?e2, ?e3, ?e4, ?e5⟩
    · simpa [insightOfEntry] using h1'
    · simpa [insightOfEntry] using h2'
    · simpa [insightOfEntry] using h3'
    · simpa [insightOfEntry] using h4'
    · simp only [insightOfEntry, h5', h6']
      by_cases hc : firstCountSpec prs u = 0
      · simp [hc]
      · simp [hc, Nat.pos_of_ne_zero hc]
  have hpm : (List.insertionSort
      (fun a b : ReviewerInsight => b.prsReviewed ≤ a.prsReviewed)
      ((reviewerStatsMap prs).map insightOfEntry)).map (fun i => i.username) |>.Perm
        ((reviewerStatsMap prs).map Prod.fst) := by
    rw [← map_username_insightOfEntry]
    exact (List.perm_insertionSort
      (fun a b : ReviewerInsight => b.prsReviewed ≤ a.prsReviewed)
      ((reviewerStatsMap prs).map insightOfEntry)).map _
  refine ⟨?els, ?sorted, ?len, ?first, ?full⟩
  · intro ins hins
    rw [htop] at hins
    exact hall ins (List.mem_of_mem_take hins)
  · rw [htop]
    refine List.Pairwise.sublist (List.take_sublist _ _) ?ps
    exact sorted_insertionSort_ge (fun i : ReviewerInsight => i.prsReviewed) _
  · rw [htop]
    exact List.length_take_le _ _
  · intro item hitem fr hfr
    have hne : humanReviewsOf item.reviews ≠ [] := by
      intro hnil
      simp only [firstHumanReview, hnil] at hfr
      simp [sortedBySubmitted] at hfr
    obtain ⟨hhead, hmem, hmin⟩ := sortedBySubmitted_head _ hne
    have hfr2 : (sortedBySubmitted (humanReviewsOf item.reviews)).head? = some fr := hfr
    have heq : (sortedBySubmitted (humanReviewsOf item.reviews)).headD dummyReview = fr :=
      Option.some.inj (hhead.symm.trans hfr2)
    rw [← heq]
    exact ⟨hmem, hmin⟩
  · refine ⟨List.insertionSort
      (fun a b : ReviewerInsight => b.prsReviewed ≤ a.prsReviewed)
      ((reviewerStatsMap prs).map insightOfEntry), ?take, ?srt, ?nd, ?memiff, hall⟩
    · rw [htop]
      rfl
    · exact sorted_insertionSort_ge (fun i : ReviewerInsight => i.prsReviewed) _
    · exact hpm.nodup_iff.mpr (keysNodup_reviewerStatsMap prs)
    · intro u
      constructor
      · intro hu
        have hukeys : u ∈ (reviewerStatsMap prs).map Prod.fst := hpm.mem_iff.mp hu
        obtain ⟨kv, hkv, hfst⟩ := List.mem_map.mp hukeys
        obtain ⟨k, s⟩ := kv
        have hpos := entry_pos_reviewerStatsMap prs _ hkv
        have hmem2 : (u, s) ∈ reviewerStatsMap prs := by
          rw [← hfst]
          exact hkv
        have hspec : s = statsSpecSum prs u := mem_reviewerStatsMap_eq prs u s hmem2
        have h1' := (statsSpecSum_components prs u hnd).1
        rw [hspec, h1'] at hpos
        omega
      · intro hpos
        by_contra hu
        have hukeys : u ∉ (reviewerStatsMap prs).map Prod.fst :=
          fun hk => hu (hpm.mem_iff.mpr hk)
        have hnone : lookupAssoc (reviewerStatsMap prs) u = none :=
          (lookupAssoc_eq_none_iff _ _).mpr hukeys
        have hz := getStats_reviewerStatsMap prs u
        unfold getStats at hz
        rw [hnone] at hz
        simp only [Option.getD] at hz
        have h1' := (statsSpecSum_components prs u hnd).1
        rw [← hz] at h1'
        simp [zeroStats] at h1'
        omega

/-- C6 witness: one PR by alice with a single human approval by bob 5 hours
after creation; the distinct-id hypothesis holds, the theorem applies, and the
top-reviewers list is exactly bob with prsReviewed 1, one approval and average
time to first review 5.  A second batch in which alice authors two reviews and
bob one shows completeness and ranking: both reviewers appear, alice first. -/
theorem C6_reviewer_insights_witness :
    (∀ item ∈ ([⟨exFreshPR, [exApproval]⟩] : List PRWithReviews),
        ((humanReviewsOf item.reviews).map (fun r => r.id)).Nodup)
  ∧ (calculateReviewerInsightsMetrics [⟨exFreshPR, [exApproval]⟩]).topReviewers.length ≤ 10
  ∧ (calculateReviewerInsightsMetrics [⟨exFreshPR, [exApproval]⟩]).topReviewers =
      [{ username := "bob", prsReviewed := 1, avgTimeToFirstReview := 5,
         approvals := 1, changesRequested := 0, commentsOnly := 0 }]
  ∧ ((calculateReviewerInsightsMetrics
        [⟨⟨31, "open", 0, none, none, exAlice, false, none, none, none⟩,
          [⟨201, some exAlice, "APPROVED", 5⟩, ⟨202, some exBob, "COMMENTED", 6⟩]⟩,
         ⟨⟨32, "open", 0, none, none, exAlice, false, none, none, none⟩,
          [⟨203, some exAlice, "APPROVED", 7⟩]⟩]).topReviewers.map
      (fun i => i.username)) = ["alice", "bob"]
  ∧ ((calculateReviewerInsightsMetrics
        [⟨⟨31, "open", 0, none, none, exAlice, false, none, none, none⟩,
          [⟨201, some exAlice, "APPROVED", 5⟩, ⟨202, some exBob, "COMMENTED", 6⟩]⟩,
         ⟨⟨32, "open", 0, none, none, exAlice, false, none, none, none⟩,
          [⟨203, some exAlice, "APPROVED", 7⟩]⟩]).topReviewers.map
      (fun i => i.prsReviewed)) = [2, 1] :=
  ⟨by decide,
   (C6_reviewer_insights [⟨exFreshPR, [exApproval]⟩] (by decide)).2.2.1,
   by
    simp +decide [calculateReviewerInsightsMetrics, topReviewersOf, reviewerStatsMap,
      processPRReviews, humanReviewsOf, isBotUser, isBot, GitHubUser.toActorInfo,
      matchesBotPattern, strEndsWith, strToLower, sortedBySubmitted, exApproval, exFreshPR,
      exBob, dummyReview, updateAssoc, bumpStats, zeroStats, insightOfEntry,
      differenceInHours, botPatternList],
   by decide, by decide⟩
